import Mathlib

/-!
Surface broker (`mflinger/mflinger.cpp`) and capture producer (`mclient.c`).

A shallow embedding of the request handlers of the surface broker and of the
pixel copy routines of the capture producer, followed by the properties of the
specification that are checked against them.

Conventions of the embedding:

* `int`/`int32_t` values are `Int`; arithmetic that can leave the 32-bit range
  goes through `wrap32`. `uint32_t` values are `Nat` reduced modulo `2^32`.
* Everything the outside world supplies during one iteration of the serve loop
  (bytes read from the socket, answers of the compositor, results of `write`
  and `sendmsg`) is collected in one record `Env`.
* Every handler returns an `Outcome`: its C return value, the broker state it
  leaves, and the ordered list of `Event`s (socket operations, compositor
  calls, accesses to `surfaces[]`) it performed.
-/

namespace Mflinger

/-! ## Constants and machine arithmetic -/

def DEFAULT_DISPLAY : Int := 0

def MARU_DESKTOP_DISPLAY : Int := 1

def MAX_SURFACES : Int := 2

def NO_ERROR : Int := 0

/-- Two's complement reduction of an integer to the `int32_t` range. -/
def wrap32 (x : Int) : Int := (x + 2147483648) % 4294967296 - 2147483648

/-! ## Data model -/

/-- The broker state `struct mflinger_state`. A surface slot holds a strong
pointer, `none` being the null pointer; a surface is named by the handle the
compositor returned for it. The compositor connection is set once in `main`
and never touched by the handlers, so it is not part of the record. -/
structure mflinger_state where
  surfaces : List (Option Nat)
  num_surfaces : Int
  layerstack : Int
deriving DecidableEq

/-- Modelled from the spec: the CreateBuffer request record of
`mlib-protocol.h` (not part of the sources); width and height are `uint32`. -/
structure MCreateBufferRequest where
  width : Nat
  height : Nat
deriving DecidableEq

/-- Modelled from the spec: the UpdateBuffer request record of
`mlib-protocol.h` (id, xpos, ypos, all `int32`). -/
structure MUpdateBufferRequest where
  id : Int
  xpos : Int
  ypos : Int
deriving DecidableEq

/-- Modelled from the spec: the LockBuffer request record of
`mlib-protocol.h` (id: `int32`). -/
structure MLockBufferRequest where
  id : Int
deriving DecidableEq

/-- Modelled from the spec: the UnlockAndPostBuffer request record of
`mlib-protocol.h` (id: `int32`). -/
structure MUnlockBufferRequest where
  id : Int
deriving DecidableEq

/-- Modelled from the spec: the CreateBuffer response record of
`mlib-protocol.h` (id, result, both `int32`). -/
structure MCreateBufferResponse where
  id : Int
  result : Int
deriving DecidableEq

/-- Modelled from the spec: the geometry a lock response carries (width,
height, stride, as assigned from `ANativeWindow_Buffer`); `bits` is always
sent as null. -/
structure BufferGeometry where
  width : Int
  height : Int
  stride : Int
deriving DecidableEq

/-- Modelled from the spec: the LockBuffer response record of
`mlib-protocol.h`. `buffer` is `none` while the handler has not assigned the
geometry fields (the C record is then uninitialised there). -/
structure MLockBufferResponse where
  buffer : Option BufferGeometry
  result : Int
deriving DecidableEq

/-- Modelled from the spec: the four opcode words of `mlib-protocol.h` (not
part of the sources), taken as parameters. -/
structure Opcodes where
  M_CREATE_BUFFER : Nat
  M_UPDATE_BUFFER : Nat
  M_LOCK_BUFFER : Nat
  M_UNLOCK_AND_POST_BUFFER : Nat
deriving DecidableEq

inductive DisplayId where
  | eDisplayIdMain
  | eDisplayIdHdmi
deriving DecidableEq

/-- What the handlers do to the outside world, in program order. -/
inductive Event where
  | sockAccept
  | sockReadHeader
  | sockReadRequest
  | sockWriteCreate (r : MCreateBufferResponse)
  | sockWriteLock (r : MLockBufferResponse)
  | sockSendmsgLock (r : MLockBufferResponse) (fd : Int)
  | sockClose
  | getBuiltInDisplay (d : DisplayId)
  | getDisplayInfo (d : DisplayId)
  | compositorCreateSurface (num : Int) (w h : Nat)
  | surfaceIsValid (s : Nat)
  | openGlobalTransaction
  | closeGlobalTransaction (synchronous : Bool)
  | setLayer (s : Nat) (layer : Int)
  | setLayerStack (s : Nat) (layerstack : Int)
  | showSurface (s : Nat)
  | setPosition (s : Option Nat) (x y : Int)
  | getSurface (s : Option Nat)
  | lockWithHandle (s : Option Nat)
  | unlockAndPost (s : Option Nat)
  | surfaceRelease (s : Nat)
  | slotRead (idx : Int)
  | slotWrite (idx : Int)
deriving DecidableEq

/-- Everything the environment supplies during one iteration of the serve
loop. Each handler reads only the fields that belong to it. -/
structure Env where
  /-- return value of the header `read` -/
  n : Int
  /-- content of the header word variable after that `read` -/
  buf : Nat
  createReq : MCreateBufferRequest
  updateReq : MUpdateBufferRequest
  lockReq : MLockBufferRequest
  unlockReq : MUnlockBufferRequest
  /-- status of `getDisplayInfo` for the main display -/
  mainInfoStatus : Int
  /-- width and height `getDisplayInfo` stores for the HDMI display,
  `none` when it leaves the record untouched -/
  extInfo : Option (Nat × Nat)
  /-- result of `compositor->createSurface`, `none` for a null pointer -/
  newSurface : Option Nat
  surfaceValid : Bool
  setLayerStatus : Int
  setLayerStackStatus : Int
  showStatus : Int
  setPositionStatus : Int
  lockErr : Int
  outBuffer : BufferGeometry
  numFds : Int
  fd0 : Int
  unlockStatus : Int
  writeResult : Int
  sendmsgResult : Int
deriving DecidableEq

/-- Result of a handler: C return value, state left behind, events performed. -/
structure Outcome where
  ret : Int
  state : mflinger_state
  events : List Event
deriving DecidableEq

/-- Content of `surfaces[idx]`; an index outside the array reads nothing the
model knows about, which is rendered as the null pointer. -/
def slotGet (surfaces : List (Option Nat)) (idx : Int) : Option Nat :=
  if 0 ≤ idx ∧ idx < MAX_SURFACES then (surfaces.getD idx.toNat none) else none

/-- Assignment `surfaces[idx] = v`; a store outside the array does not change
any slot of the array. -/
def slotSet (surfaces : List (Option Nat)) (idx : Int) (v : Option Nat) :
    List (Option Nat) :=
  if 0 ≤ idx ∧ idx < MAX_SURFACES then surfaces.set idx.toNat v else surfaces

/-- The state `main` starts with. -/
def initial_state : mflinger_state :=
  { surfaces := [none, none], num_surfaces := 0, layerstack := -1 }

/-! ## The handlers -/

def buffer_id_to_index (id : Int) : Int := wrap32 (id - 1)

def get_layer (surface_idx : Int) : Int := wrap32 (0x7ffffff0 + surface_idx)

/-- Function `assign_layerstack`: its result and the display queries made. -/
def assign_layerstack (e : Env) : Int × List Event :=
  if NO_ERROR ≠ e.mainInfoStatus then
    (-1, [Event.getBuiltInDisplay .eDisplayIdMain, Event.getDisplayInfo .eDisplayIdMain])
  else
    let dinfo_ext : Nat × Nat := e.extInfo.getD (0, 0)
    let hasHDMIDisplay : Bool := decide (dinfo_ext.1 > 0) && decide (dinfo_ext.2 > 0)
    (if hasHDMIDisplay then MARU_DESKTOP_DISPLAY else DEFAULT_DISPLAY,
      [Event.getBuiltInDisplay .eDisplayIdMain, Event.getDisplayInfo .eDisplayIdMain,
       Event.getBuiltInDisplay .eDisplayIdHdmi, Event.getDisplayInfo .eDisplayIdHdmi])

/-- The lazy initialisation at the head of `createSurface`. -/
def lazy_layerstack (state : mflinger_state) (e : Env) : mflinger_state × List Event :=
  if state.layerstack < 0 then
    ({ state with layerstack := (assign_layerstack e).1 }, (assign_layerstack e).2)
  else (state, [])

/-- Events of a store to `surfaces[idx]`: the store itself and, when the slot
held a surface, the release the strong pointer performs on the value it
drops. -/
def slotStoreEvents (surfaces : List (Option Nat)) (idx : Int) : List Event :=
  match slotGet surfaces idx with
  | some s => [Event.slotWrite idx, Event.surfaceRelease s]
  | none => [Event.slotWrite idx]

def createSurface (state : mflinger_state) (w h : Nat) (e : Env) : Outcome :=
  if state.num_surfaces ≥ MAX_SURFACES then
    { ret := -1, state := state, events := [] }
  else
    let st1 := (lazy_layerstack state e).1
    let ev1 := (lazy_layerstack state e).2 ++
      [Event.compositorCreateSurface st1.num_surfaces w h]
    match e.newSurface with
    | none => { ret := -1, state := st1, events := ev1 }
    | some s =>
      if e.surfaceValid = false then
        { ret := -1, state := st1,
          events := ev1 ++ [Event.surfaceIsValid s, Event.surfaceRelease s] }
      else
        let ret := Int.lor (Int.lor (Int.lor NO_ERROR e.setLayerStatus) e.setLayerStackStatus)
          e.showStatus
        let ev2 := ev1 ++
          [Event.surfaceIsValid s, Event.openGlobalTransaction,
           Event.setLayer s (get_layer st1.num_surfaces),
           Event.setLayerStack s st1.layerstack,
           Event.showSurface s,
           Event.closeGlobalTransaction true]
        if NO_ERROR ≠ ret then
          { ret := -1, state := st1, events := ev2 ++ [Event.surfaceRelease s] }
        else
          { ret := 0,
            state := { st1 with
              surfaces := slotSet st1.surfaces st1.num_surfaces (some s),
              num_surfaces := st1.num_surfaces + 1 },
            events := ev2 ++ slotStoreEvents st1.surfaces st1.num_surfaces }

/-- The record `createBuffer` writes back, given what `createSurface` returned. -/
def createBuffer_response (r : Outcome) : MCreateBufferResponse :=
  { id := if r.ret ≠ 0 then -1 else r.state.num_surfaces,
    result := if r.ret ≠ 0 then -1 else 0 }

def createBuffer (state : mflinger_state) (e : Env) : Outcome :=
  let r := createSurface state e.createReq.width e.createReq.height e
  let response := createBuffer_response r
  let ev := [Event.sockReadRequest] ++ r.events ++ [Event.sockWriteCreate response]
  if e.writeResult < 0 then { ret := -1, state := r.state, events := ev }
  else { ret := 0, state := r.state, events := ev }

def updateBuffer (state : mflinger_state) (e : Env) : Outcome :=
  let request := e.updateReq
  let idx := buffer_id_to_index request.id
  if 0 ≤ idx ∧ idx < state.num_surfaces then
    let sc := slotGet state.surfaces idx
    let ret := Int.lor NO_ERROR e.setPositionStatus
    let ev := [Event.sockReadRequest, Event.slotRead idx, Event.openGlobalTransaction,
      Event.setPosition sc request.xpos request.ypos, Event.closeGlobalTransaction false]
    if NO_ERROR ≠ ret then { ret := -1, state := state, events := ev }
    else { ret := 0, state := state, events := ev }
  else
    { ret := -1, state := state, events := [Event.sockReadRequest] }

def sendfd (e : Env) (data : MLockBufferResponse) (fd : Int) : Int × List Event :=
  if e.sendmsgResult < 0 then (-1, [Event.sockSendmsgLock data fd])
  else (0, [Event.sockSendmsgLock data fd])

def lockBuffer (state : mflinger_state) (e : Env) : Outcome :=
  let request := e.lockReq
  let idx := buffer_id_to_index request.id
  let response : MLockBufferResponse := { buffer := none, result := -1 }
  if 0 ≤ idx ∧ idx < state.num_surfaces then
    let sc := slotGet state.surfaces idx
    let ev := [Event.sockReadRequest, Event.slotRead idx, Event.getSurface sc,
      Event.lockWithHandle sc]
    if e.lockErr ≠ 0 then
      { ret := -1, state := state, events := ev ++ [Event.sockWriteLock response] }
    else if e.numFds < 1 then
      { ret := -1, state := state, events := ev ++ [Event.sockWriteLock response] }
    else
      let response : MLockBufferResponse := { buffer := some e.outBuffer, result := 0 }
      { ret := (sendfd e response e.fd0).1, state := state,
        events := ev ++ (sendfd e response e.fd0).2 }
  else
    { ret := -1, state := state,
      events := [Event.sockReadRequest, Event.sockWriteLock response] }

def unlockAndPostBuffer (state : mflinger_state) (e : Env) : Outcome :=
  let request := e.unlockReq
  let idx := buffer_id_to_index request.id
  if 0 ≤ idx ∧ idx < state.num_surfaces then
    let sc := slotGet state.surfaces idx
    { ret := e.unlockStatus, state := state,
      events := [Event.sockReadRequest, Event.slotRead idx, Event.getSurface sc,
        Event.unlockAndPost sc] }
  else
    { ret := -1, state := state, events := [Event.sockReadRequest] }

/-- The `do … while (--state->num_surfaces > 0)` loop of `purge_surfaces`,
with an iteration budget. -/
def purge_loop : Nat → mflinger_state → mflinger_state × List Event
  | 0, state => (state, [])
  | fuel + 1, state =>
    let idx := wrap32 (state.num_surfaces - 1)
    let ev := slotStoreEvents state.surfaces idx
    let st1 : mflinger_state :=
      { state with
        surfaces := slotSet state.surfaces idx none,
        num_surfaces := wrap32 (state.num_surfaces - 1) }
    if st1.num_surfaces > 0 then
      ((purge_loop fuel st1).1, ev ++ (purge_loop fuel st1).2)
    else (st1, ev)

/-- Number of iterations the loop of `purge_surfaces` makes when entered with
the given count (the body always runs once). -/
def purge_iterations (num_surfaces : Int) : Nat :=
  if wrap32 (num_surfaces - 1) > 0 then (wrap32 (num_surfaces - 1)).toNat + 1 else 1

def purge_surfaces (state : mflinger_state) : mflinger_state × List Event :=
  purge_loop (purge_iterations state.num_surfaces) state

/-- What one pass through the body of the `do … while (1)` loop of `serve`
does: `continues = false` is the `break`. -/
structure Iteration where
  continues : Bool
  state : mflinger_state
  events : List Event
deriving DecidableEq

def serve_iteration (op : Opcodes) (state : mflinger_state) (e : Env) : Iteration :=
  if e.n = 0 then
    let p := purge_surfaces state
    { continues := false,
      state := { p.1 with layerstack := -1 },
      events := [Event.sockReadHeader, Event.sockClose] ++ p.2 }
  else if e.buf = op.M_CREATE_BUFFER then
    { continues := true, state := (createBuffer state e).state,
      events := Event.sockReadHeader :: (createBuffer state e).events }
  else if e.buf = op.M_UPDATE_BUFFER then
    { continues := true, state := (updateBuffer state e).state,
      events := Event.sockReadHeader :: (updateBuffer state e).events }
  else if e.buf = op.M_LOCK_BUFFER then
    { continues := true, state := (lockBuffer state e).state,
      events := Event.sockReadHeader :: (lockBuffer state e).events }
  else if e.buf = op.M_UNLOCK_AND_POST_BUFFER then
    { continues := true, state := (unlockAndPostBuffer state e).state,
      events := Event.sockReadHeader :: (unlockAndPostBuffer state e).events }
  else
    { continues := true, state := state, events := [Event.sockReadHeader] }

/-- The loop of `serve` over the iterations the environment supplies: it stops
at the `break`, or is still waiting in `read` when the list is used up. Returns
the state, the events and the inputs not consumed. -/
def serve_loop (op : Opcodes) : mflinger_state → List Env →
    mflinger_state × List Event × List Env
  | state, [] => (state, [], [])
  | state, e :: rest =>
    let it := serve_iteration op state e
    if it.continues then
      let r := serve_loop op it.state rest
      (r.1, it.events ++ r.2.1, r.2.2)
    else (it.state, it.events, rest)

def serve (op : Opcodes) (state : mflinger_state) (inputs : List Env) :
    mflinger_state × List Event × List Env :=
  let r := serve_loop op state inputs
  (r.1, Event.sockAccept :: r.2.1, r.2.2)

/-! ## Vocabulary of the properties -/

/-- The id validity rule as the handlers test it. -/
def valid_id (state : mflinger_state) (id : Int) : Prop :=
  0 ≤ buffer_id_to_index id ∧ buffer_id_to_index id < state.num_surfaces

instance (state : mflinger_state) (id : Int) : Decidable (valid_id state id) := by
  unfold valid_id; infer_instance

/-- Calls into the surface provider (compositor), as opposed to socket
operations and accesses to the broker's own array. -/
def Event.isProviderCall : Event → Bool
  | .getBuiltInDisplay _ => true
  | .getDisplayInfo _ => true
  | .compositorCreateSurface _ _ _ => true
  | .surfaceIsValid _ => true
  | .openGlobalTransaction => true
  | .closeGlobalTransaction _ => true
  | .setLayer _ _ => true
  | .setLayerStack _ _ => true
  | .showSurface _ => true
  | .setPosition _ _ _ => true
  | .getSurface _ => true
  | .lockWithHandle _ => true
  | .unlockAndPost _ => true
  | .surfaceRelease _ => true
  | _ => false

/-- The result field of a response record put on the connection, for the
events that are such a record. -/
def Event.responseResult : Event → Option Int
  | .sockWriteCreate r => some r.result
  | .sockWriteLock r => some r.result
  | .sockSendmsgLock r _ => some r.result
  | _ => none

/-- Result fields of the response records written, in order. -/
def responses (events : List Event) : List Int :=
  events.filterMap Event.responseResult

/-- The provider calls among the events. -/
def provider_calls (events : List Event) : List Event :=
  events.filter Event.isProviderCall

/-- An environment in which every provider and socket operation succeeds; the
compositor hands out surface handle `7` and the gralloc buffer carries one
descriptor. -/
def env_ok : Env :=
  { n := 4, buf := 0,
    createReq := { width := 800, height := 480 },
    updateReq := { id := 1, xpos := 50, ypos := 60 },
    lockReq := { id := 1 },
    unlockReq := { id := 1 },
    mainInfoStatus := 0, extInfo := some (1920, 1080),
    newSurface := some 7, surfaceValid := true,
    setLayerStatus := 0, setLayerStackStatus := 0, showStatus := 0,
    setPositionStatus := 0,
    lockErr := 0, outBuffer := { width := 800, height := 480, stride := 832 },
    numFds := 1, fd0 := 5,
    unlockStatus := 0, writeResult := 8, sendmsgResult := 24 }

/-- Opcode values used for concrete runs. -/
def opcodes_example : Opcodes :=
  { M_CREATE_BUFFER := 1, M_UPDATE_BUFFER := 2, M_LOCK_BUFFER := 3,
    M_UNLOCK_AND_POST_BUFFER := 4 }

/-- The condition under which `lockBuffer` reports success. -/
def lock_succeeds (state : mflinger_state) (e : Env) : Prop :=
  valid_id state e.lockReq.id ∧ e.lockErr = 0 ∧ ¬ e.numFds < 1

instance (state : mflinger_state) (e : Env) : Decidable (lock_succeeds state e) := by
  unfold lock_succeeds; infer_instance

/-! ## Sessions of CreateBuffer requests -/

/-- One answered CreateBuffer request: what the environment supplied, what
`createBuffer` did, and the response record it wrote. -/
structure Created where
  env : Env
  outcome : Outcome
  response : MCreateBufferResponse
deriving DecidableEq

/-- The CreateBuffer requests of a session handled one after the other, each
starting from the state its predecessor left. -/
def create_session : mflinger_state → List Env → List Created
  | _, [] => []
  | state, e :: rest =>
    { env := e, outcome := createBuffer state e,
      response := createBuffer_response
        (createSurface state e.createReq.width e.createReq.height e) }
      :: create_session (createBuffer state e).state rest

/-- The state a sequence of CreateBuffer requests leaves. -/
def create_session_final : mflinger_state → List Env → mflinger_state
  | state, [] => state
  | state, e :: rest => create_session_final (createBuffer state e).state rest

/-- A CreateBuffer request counts as successful when its response says so. -/
def Created.successful (c : Created) : Bool := decide (c.response.result = 0)

/-- The surface provider succeeds on a CreateBuffer request: the compositor
hands out a surface that is valid, and `setLayer`, `setLayerStack` and `show`
return `NO_ERROR`. -/
def provider_succeeds (e : Env) : Prop :=
  e.newSurface.isSome = true ∧ e.surfaceValid = true
    ∧ e.setLayerStatus = NO_ERROR ∧ e.setLayerStackStatus = NO_ERROR
    ∧ e.showStatus = NO_ERROR

instance (e : Env) : Decidable (provider_succeeds e) := by
  unfold provider_succeeds; infer_instance

/-- Number of successful requests among the first `i` requests of a run. -/
def successes_before (run : List Created) (i : Nat) : Nat :=
  ((run.take i).filter Created.successful).length

/-- An environment whose query of the main display fails, everything else
succeeding. -/
def env_query_fails : Env := { env_ok with mainInfoStatus := -1, newSurface := some 8 }

/-! ## The loop of `main` -/

/-- The `for (;;) serve(sockfd, &state)` loop of `main` over the passes of the
serve loop the environment supplies: a pass that ends with `break` returns
from `serve`, and the next pass belongs to the next call of `serve`, which
first accepts a new client. The state is carried from one pass to the next.
Returns the state reached and the events performed. -/
def main_loop (op : Opcodes) : mflinger_state → List Env → mflinger_state × List Event
  | state, [] => (state, [])
  | state, e :: rest =>
    ((main_loop op (serve_iteration op state e).state rest).1,
     (serve_iteration op state e).events
       ++ (if (serve_iteration op state e).continues then [] else [Event.sockAccept])
       ++ (main_loop op (serve_iteration op state e).state rest).2)

/-- The indices used to read or write `surfaces[]`, in order. -/
def slot_indices (events : List Event) : List Int :=
  events.filterMap fun ev =>
    match ev with
    | .slotRead idx => some idx
    | .slotWrite idx => some idx
    | _ => none

/-- The bounds the surface count is meant to stay in. -/
def count_in_bounds (state : mflinger_state) : Prop :=
  0 ≤ state.num_surfaces ∧ state.num_surfaces ≤ MAX_SURFACES

instance (state : mflinger_state) : Decidable (count_in_bounds state) := by
  unfold count_in_bounds; infer_instance

/-- An index inside the array `surfaces[MAX_SURFACES]`. -/
def index_in_bounds (idx : Int) : Prop := 0 ≤ idx ∧ idx < MAX_SURFACES

instance (idx : Int) : Decidable (index_in_bounds idx) := by
  unfold index_in_bounds; infer_instance

end Mflinger

namespace Mclient

/-! ## Capture producer: pixel copies (`mclient.c`)

Pixel memory is a map from byte offsets (relative to the base pointer of the
region) to byte values. A copy routine returns the destination memory it
leaves; `copy_ximage_rows_to_buffer` also returns the `memcpy` calls it made.
Offsets are computed in `uint32_t`, as in the source, hence modulo `2^32`. -/

/-- Conversion of a C `int` to `uint32_t`. -/
def toU32 (x : Int) : Nat := (x % 4294967296).toNat

/-- Byte memory addressed by offset from a base pointer. -/
abbrev Mem := Nat → Nat

/-- Modelled from the spec: the geometry fields of `MBuffer` (`mlib.h`, not part
of the sources), `uint32_t` values in pixels; the memory behind `bits` is passed
separately and is addressed in bytes. -/
structure MBuffer where
  width : Nat
  height : Nat
  stride : Nat
deriving DecidableEq

/-- The fields of Xlib's `XImage` that the copy reads (all of C type `int`);
the memory behind `data` is passed separately. -/
structure XImage where
  width : Int
  height : Int
  bytes_per_line : Int
  bits_per_pixel : Int
deriving DecidableEq

/-- The fields of `XFixesCursorImage` that `mclient.c` reads: the size
(`unsigned short`), used by the compositing loop, and the position (`short`)
and hotspot (`unsigned short`), used by the event loop of `main`. -/
structure XFixesCursorImage where
  width : Nat
  height : Nat
  x : Int := 0
  y : Int := 0
  xhot : Nat := 0
  yhot : Nat := 0
deriving DecidableEq

/-- Library routine `memcpy(dst + d, src + s, n)` for regions that do not
overlap. -/
def memcpy (dst : Mem) (d : Nat) (src : Mem) (s n : Nat) : Mem :=
  fun a => if d ≤ a ∧ a < d + n then src (s + (a - d)) else dst a

/-- One `memcpy` call: destination offset, source offset, length in bytes. -/
structure Copy where
  dst : Nat
  src : Nat
  len : Nat
deriving DecidableEq

/-- The `for (y = row_start; y < row_end; ++y)` loop of
`copy_ximage_rows_to_buffer`, with an iteration budget. `y < row_end` holds
where `++y` is executed, so the increment cannot wrap. -/
def copy_rows_loop (buf_bytes_per_line ximg_bytes_per_line len : Nat) (data : Mem)
    (row_end : Nat) : Nat → Nat → Mem → Mem × List Copy
  | 0, _, bits => (bits, [])
  | fuel + 1, y, bits =>
    if y < row_end then
      let buf_row := (y * buf_bytes_per_line) % 4294967296
      let ximg_row := (y * ximg_bytes_per_line) % 4294967296
      let r := copy_rows_loop buf_bytes_per_line ximg_bytes_per_line len data row_end
        fuel (y + 1) (memcpy bits buf_row data ximg_row len)
      (r.1, { dst := buf_row, src := ximg_row, len := len } :: r.2)
    else (bits, [])

/-- Function `copy_ximage_rows_to_buffer`: return value, destination memory
afterwards, and the `memcpy` calls in order. `row_start` and `row_end` are
`uint32_t` arguments. -/
def copy_ximage_rows_to_buffer (buf : MBuffer) (bits : Mem) (ximg : XImage) (data : Mem)
    (row_start row_end : Nat) : Int × Mem × List Copy :=
  let buf_bytes_per_line := (buf.stride * 4) % 4294967296
  let ximg_bytes_per_pixel := toU32 (Int.tdiv ximg.bits_per_pixel 8)
  let len := (toU32 ximg.width * ximg_bytes_per_pixel) % 4294967296
  let r := copy_rows_loop buf_bytes_per_line (toU32 ximg.bytes_per_line) len data row_end
    (row_end - row_start) row_start bits
  (0, r.1, r.2)

def copy_ximage_to_buffer (buf : MBuffer) (bits : Mem) (ximg : XImage) (data : Mem) :
    Int × Mem × List Copy :=
  copy_ximage_rows_to_buffer buf bits ximg data 0 (toU32 ximg.height)

/-- The inner `for (cur_x = 0; cur_x < cursor->width; ++cur_x)` loop of
`copy_xcursor_to_buffer` for one cursor row, with an iteration budget. The
pixel is read from `cursor_cache.bits`. -/
def cursor_row_loop (buf : MBuffer) (cache_bits : Mem) (cursor_width cur_y : Nat) :
    Nat → Nat → Mem → Mem
  | 0, _, bits => bits
  | fuel + 1, cur_x, bits =>
    if cur_x < cursor_width then
      if cur_y ≥ buf.height ∨ cur_x ≥ buf.width then bits
      else
        let pixel := (4 * (((cur_y * cursor_width) % 4294967296 + cur_x) % 4294967296))
          % 4294967296
        let buf_pixel := ((((cur_y * buf.stride) % 4294967296 + cur_x) % 4294967296) * 4)
          % 4294967296
        cursor_row_loop buf cache_bits cursor_width cur_y fuel (cur_x + 1)
          (if cache_bits (pixel + 3) = 255 then memcpy bits buf_pixel cache_bits pixel 4
           else bits)
    else bits

/-- The outer `for (cur_y = 0; cur_y < cursor->height; ++cur_y)` loop, with an
iteration budget. -/
def cursor_loop (buf : MBuffer) (cache_bits : Mem) (cursor : XFixesCursorImage) :
    Nat → Nat → Mem → Mem
  | 0, _, bits => bits
  | fuel + 1, cur_y, bits =>
    if cur_y < cursor.height then
      cursor_loop buf cache_bits cursor fuel (cur_y + 1)
        (cursor_row_loop buf cache_bits cursor.width cur_y cursor.width 0 bits)
    else bits

/-- Function `copy_xcursor_to_buffer`. The calls `MLockBuffer` and
`MUnlockBuffer` (`mlib.c`, not part of the sources) enter through their return
values `lock_err` and `unlock_err`; `buf` and `bits` are the buffer record and
its mapped memory as they stand after the lock; `cache_bits` is the memory
behind `cursor_cache.bits`. Returns the C return value and the destination
memory afterwards. -/
def copy_xcursor_to_buffer (lock_err unlock_err : Int) (buf : MBuffer) (bits : Mem)
    (cache_bits : Mem) (cursor : XFixesCursorImage) : Int × Mem :=
  if lock_err < 0 then (-1, bits)
  else
    let bits1 := cursor_loop buf cache_bits cursor cursor.height 0 bits
    if unlock_err < 0 then (-1, bits1) else (0, bits1)

/-- An image given by non-negative field values. -/
def XImage.ofNat (w h bytes_per_line bits_per_pixel : Nat) : XImage :=
  { width := w, height := h, bytes_per_line := bytes_per_line,
    bits_per_pixel := bits_per_pixel }

/-- The memory a list of `memcpy` calls from `data` produces. -/
def apply_copies (data : Mem) (bits : Mem) (copies : List Copy) : Mem :=
  copies.foldl (fun m c => memcpy m c.dst data c.src c.len) bits

/-- Sample source memory: byte `a` holds `a % 251 + 1`. -/
def sample_data : Mem := fun a => a % 251 + 1

/-- Sample destination memory: all bytes zero. -/
def zero_bits : Mem := fun _ => 0

/-- Sample cursor bitmap: every alpha byte (byte 3 of a pixel) is 255, the
other bytes hold their own offset modulo 251. -/
def solid_cursor : Mem := fun a => if a % 4 = 3 then 255 else a % 251

/-! ## Cursor position in the event loop of `main` -/

/-- Two's complement reduction of an integer to the `int32_t` range. -/
def toI32 (x : Int) : Int := (x + 2147483648) % 4294967296 - 2147483648

/-- The numeric fields of the global `cursor_cache` (all `uint32_t`). -/
structure cursor_cache_t where
  last_x : Nat
  last_y : Nat
  w : Nat
  h : Nat
deriving DecidableEq

/-- What the cursor part of one pass of the event loop leaves: the cache, and
the position handed to `MUpdateBuffer` for the cursor surface when the call
is made. -/
structure CursorStep where
  cache : cursor_cache_t
  update : Option (Int × Int)
deriving DecidableEq

/-- The cursor part of one pass of the event loop of `main` (from
`XFixesGetCursorImage` to `XFree`), for the image `xcursor` the capture
provider returned. The comparison with the cache is made in `uint32_t`; the
operands of the subtraction are promoted to `int`. The return value of
`MUpdateBuffer` is only logged. -/
def main_cursor_step (cursor_cache : cursor_cache_t) (xcursor : XFixesCursorImage) :
    CursorStep :=
  if toU32 xcursor.x ≠ cursor_cache.last_x ∨ toU32 xcursor.y ≠ cursor_cache.last_y then
    let xpos0 : Int := toI32 (xcursor.x - (xcursor.xhot : Int))
    let ypos0 : Int := toI32 (xcursor.y - (xcursor.yhot : Int))
    let xpos : Int := if xpos0 < 0 then 0 else xpos0
    let ypos : Int := if ypos0 < 0 then 0 else ypos0
    { cache := { cursor_cache with last_x := toU32 xcursor.x, last_y := toU32 xcursor.y },
      update := some (xpos, ypos) }
  else
    { cache := cursor_cache, update := none }

end Mclient

namespace Mflinger

/-! ## Invalid ids -/

/-- For 32-bit ids and counts, the ids rejected by the validity rule are the
non-positive ones (with `INT32_MIN`, whose index wraps to `INT32_MAX`) and
those above the surface count. -/
theorem valid_id_iff (state : mflinger_state) (id : Int)
    (hid : -2147483648 ≤ id ∧ id ≤ 2147483647)
    (hn : state.num_surfaces ≤ 2147483647) :
    valid_id state id ↔ (1 ≤ id ∧ id ≤ state.num_surfaces) := by
  unfold valid_id buffer_id_to_index wrap32
  omega

/-- C1: an id that fails the validity rule `0 ≤ id-1 < num_surfaces` (index
computed in wrapping 32-bit arithmetic) makes `updateBuffer`, `lockBuffer` and
`unlockAndPostBuffer` return -1, `lockBuffer` writing one response with result
-1; none of them calls the surface provider or changes the broker state. -/
theorem invalid_id_no_effect (state : mflinger_state) (e : Env) (id : Int)
    (h : ¬ valid_id state id) :
    updateBuffer state { e with updateReq := { e.updateReq with id := id } }
        = { ret := -1, state := state, events := [Event.sockReadRequest] }
    ∧ lockBuffer state { e with lockReq := { id := id } }
        = { ret := -1, state := state,
            events := [Event.sockReadRequest,
              Event.sockWriteLock { buffer := none, result := -1 }] }
    ∧ unlockAndPostBuffer state { e with unlockReq := { id := id } }
        = { ret := -1, state := state, events := [Event.sockReadRequest] }
    ∧ provider_calls
        (updateBuffer state { e with updateReq := { e.updateReq with id := id } }).events = []
    ∧ provider_calls (lockBuffer state { e with lockReq := { id := id } }).events = []
    ∧ provider_calls
        (unlockAndPostBuffer state { e with unlockReq := { id := id } }).events = [] := by
  have h1 : ¬ (0 ≤ buffer_id_to_index id ∧ buffer_id_to_index id < state.num_surfaces) := h
  simp [updateBuffer, lockBuffer, unlockAndPostBuffer, h1, provider_calls,
    Event.isProviderCall]

theorem invalid_id_no_effect_witness :
    ¬ valid_id initial_state (-2147483648)
    ∧ lockBuffer initial_state { env_ok with lockReq := { id := -2147483648 } }
        = { ret := -1, state := initial_state,
            events := [Event.sockReadRequest,
              Event.sockWriteLock { buffer := none, result := -1 }] } :=
  ⟨by decide, (invalid_id_no_effect initial_state env_ok (-2147483648) (by decide)).2.1⟩

/-! ## Capacity -/

/-- C2: with `num_surfaces ≥ MAX_SURFACES` (= 2), `createSurface` returns -1
with no provider call and the state as it was, and `createBuffer` answers with
id = -1 and result = -1. -/
theorem create_beyond_capacity (state : mflinger_state) (e : Env) (w h : Nat)
    (hfull : state.num_surfaces ≥ MAX_SURFACES) :
    MAX_SURFACES = 2
    ∧ createSurface state w h e = { ret := -1, state := state, events := [] }
    ∧ (createBuffer state e).state = state
    ∧ (createBuffer state e).events
        = [Event.sockReadRequest, Event.sockWriteCreate { id := -1, result := -1 }]
    ∧ provider_calls (createBuffer state e).events = [] := by
  have hs : ∀ w h, createSurface state w h e = { ret := -1, state := state, events := [] } := by
    intro w h
    simp [createSurface, hfull]
  refine ⟨rfl, hs w h, ?_, ?_, ?_⟩
  · simp only [createBuffer, hs]
    split <;> rfl
  · simp only [createBuffer, hs, createBuffer_response]
    split <;> simp
  · simp only [createBuffer, hs, createBuffer_response]
    split <;> simp [provider_calls, Event.isProviderCall]

theorem create_beyond_capacity_witness :
    (createBuffer { surfaces := [some 7, some 8], num_surfaces := 2, layerstack := 1 }
        env_ok).events
      = [Event.sockReadRequest, Event.sockWriteCreate { id := -1, result := -1 }] :=
  (create_beyond_capacity { surfaces := [some 7, some 8], num_surfaces := 2, layerstack := 1 }
    env_ok 32 32 (by decide)).2.2.2.1


/-! ## Unknown opcodes -/

/-- C9: when the header read delivered a word (`n ≠ 0`) that is none of the
four opcodes, the iteration of the serve loop consists of that header read
alone: nothing further is read, no response is written, no provider operation
is called, the broker state is unchanged, the connection is not closed and the
loop goes on to its next read. -/
theorem unknown_opcode_ignored (op : Opcodes) (state : mflinger_state) (e : Env)
    (hn : e.n ≠ 0)
    (h1 : e.buf ≠ op.M_CREATE_BUFFER) (h2 : e.buf ≠ op.M_UPDATE_BUFFER)
    (h3 : e.buf ≠ op.M_LOCK_BUFFER) (h4 : e.buf ≠ op.M_UNLOCK_AND_POST_BUFFER) :
    serve_iteration op state e
        = { continues := true, state := state, events := [Event.sockReadHeader] }
    ∧ responses (serve_iteration op state e).events = []
    ∧ provider_calls (serve_iteration op state e).events = []
    ∧ Event.sockClose ∉ (serve_iteration op state e).events
    ∧ Event.sockReadRequest ∉ (serve_iteration op state e).events := by
  have hs : serve_iteration op state e
      = { continues := true, state := state, events := [Event.sockReadHeader] } := by
    simp [serve_iteration, hn, h1, h2, h3, h4]
  simp [hs, responses, provider_calls, Event.isProviderCall, Event.responseResult]

theorem unknown_opcode_ignored_witness :
    serve_iteration opcodes_example initial_state { env_ok with buf := 99 }
      = { continues := true, state := initial_state, events := [Event.sockReadHeader] } :=
  (unknown_opcode_ignored opcodes_example initial_state { env_ok with buf := 99 }
    (by decide) (by decide) (by decide) (by decide) (by decide)).1

/-! ## Responses -/

/-- C10 (as stated) fails: `updateBuffer` on a valid id with a succeeding
provider returns 0 and puts no response record on the connection. -/
theorem updateBuffer_sends_no_response :
    (updateBuffer { surfaces := [some 7, none], num_surfaces := 1, layerstack := 1 }
        env_ok).ret = 0
    ∧ responses (updateBuffer { surfaces := [some 7, none], num_surfaces := 1, layerstack := 1 }
        env_ok).events = []
    ∧ ¬ (responses (updateBuffer
          { surfaces := [some 7, none], num_surfaces := 1, layerstack := 1 }
          env_ok).events).length = 1 := by
  decide

theorem responses_append (a b : List Event) :
    responses (a ++ b) = responses a ++ responses b := by
  simp [responses]

theorem responses_cons (x : Event) (l : List Event) :
    responses (x :: l) = (Event.responseResult x).toList ++ responses l := by
  unfold responses
  rw [List.filterMap_cons]
  cases Event.responseResult x <;> rfl

theorem responses_nil : responses [] = [] := rfl

theorem responses_slotStoreEvents (surfaces : List (Option Nat)) (idx : Int) :
    responses (slotStoreEvents surfaces idx) = [] := by
  unfold slotStoreEvents
  split <;> simp [responses, Event.responseResult]

theorem responses_lazy_layerstack (state : mflinger_state) (e : Env) :
    responses (lazy_layerstack state e).2 = [] := by
  unfold lazy_layerstack assign_layerstack
  split_ifs <;> simp [responses, Event.responseResult]

/-- Function `createSurface` itself never writes to the connection. -/
theorem responses_createSurface (state : mflinger_state) (w h : Nat) (e : Env) :
    responses (createSurface state w h e).events = [] := by
  by_cases h1 : state.num_surfaces ≥ MAX_SURFACES
  · simp [createSurface, h1, responses]
  · cases hS : e.newSurface with
    | none =>
      simp [createSurface, h1, hS, responses_append, responses_lazy_layerstack,
        responses_cons, responses_nil, Event.responseResult]
    | some s =>
      by_cases hv : e.surfaceValid = false
      · simp [createSurface, h1, hS, hv, responses_append, responses_lazy_layerstack,
          responses_cons, responses_nil, Event.responseResult]
      · by_cases hr : NO_ERROR = Int.lor (Int.lor (Int.lor NO_ERROR e.setLayerStatus)
            e.setLayerStackStatus) e.showStatus
        · simp [createSurface, h1, hS, hv, ← hr, responses_append, responses_lazy_layerstack,
            responses_slotStoreEvents, responses_cons, responses_nil, Event.responseResult]
        · simp [createSurface, h1, hS, hv, hr, responses_append, responses_lazy_layerstack,
            responses_cons, responses_nil, Event.responseResult]

/-- C10 (amended): `createBuffer` and `lockBuffer` each put exactly one response
record on the connection, carrying result 0 when the operation succeeded and -1
when it failed, for every state, request and provider answer; `updateBuffer`
writes no response at all. -/
theorem responses_of_handlers (state : mflinger_state) (e : Env) :
    responses (createBuffer state e).events
        = [if (createSurface state e.createReq.width e.createReq.height e).ret = 0
            then 0 else -1]
    ∧ responses (lockBuffer state e).events
        = [if lock_succeeds state e then 0 else -1]
    ∧ responses (updateBuffer state e).events = [] := by
  refine ⟨?_, ?_, ?_⟩
  · have hc := responses_createSurface state e.createReq.width e.createReq.height e
    simp only [createBuffer, createBuffer_response]
    split <;> simp only [responses_append, hc] <;>
      split_ifs <;> simp_all [responses, Event.responseResult]
  · simp only [lockBuffer, responses, lock_succeeds, valid_id, sendfd]
    split_ifs <;> simp_all [List.filterMap_cons, Event.responseResult]
  · simp only [updateBuffer, responses]
    split_ifs <;> simp [List.filterMap_cons, Event.responseResult]

/-! ## Iteration budgets -/

/-- The budget `purge_surfaces` gives its loop is never used up: any larger
budget produces the same state and events. -/
theorem purge_loop_budget (fuel : Nat) :
    ∀ (fuel2 : Nat) (state : mflinger_state),
      purge_iterations state.num_surfaces ≤ fuel →
      purge_iterations state.num_surfaces ≤ fuel2 →
      purge_loop fuel state = purge_loop fuel2 state := by
  induction fuel with
  | zero =>
    intro fuel2 state h1 _
    unfold purge_iterations at h1
    split at h1 <;> omega
  | succ n ih =>
    intro fuel2 state h1 h2
    cases fuel2 with
    | zero =>
      unfold purge_iterations at h2
      split at h2 <;> omega
    | succ m =>
      simp only [purge_loop]
      by_cases hpos : wrap32 (state.num_surfaces - 1) > 0
      · have hit : purge_iterations (wrap32 (state.num_surfaces - 1))
            ≤ (wrap32 (state.num_surfaces - 1)).toNat := by
          unfold purge_iterations
          have hw : wrap32 (wrap32 (state.num_surfaces - 1) - 1)
              = wrap32 (state.num_surfaces - 1) - 1 := by
            unfold wrap32 at hpos ⊢
            omega
          rw [hw]
          split <;> omega
        have hn : purge_iterations state.num_surfaces
            = (wrap32 (state.num_surfaces - 1)).toNat + 1 := by
          unfold purge_iterations
          rw [if_pos hpos]
        rw [hn] at h1 h2
        rw [if_pos hpos, if_pos hpos]
        rw [ih m { state with
            surfaces := slotSet state.surfaces (wrap32 (state.num_surfaces - 1)) none,
            num_surfaces := wrap32 (state.num_surfaces - 1) }
          (by simp only []; omega) (by simp only []; omega)]
      · rw [if_neg hpos, if_neg hpos]

/-! ## Session end -/

/-- C4 (the code departs from it): a session that created no surface and then
disconnects leaves `num_surfaces = -1`, not 0: the `do … while` loop of
`purge_surfaces` runs its body once on the empty array (a store to
`surfaces[-1]`) and decrements the count below zero. The first successful
CreateBuffer of the next session then answers id = 0 with result = 0 and its
surface is stored through index -1, outside the array. (What the two stores
outside the array overwrite is not part of the model; the count and the
answered id do not depend on it.) -/
theorem purge_of_empty_session (op : Opcodes) (e : Env) :
    (serve_iteration op initial_state { e with n := 0 }).state
        = { surfaces := [none, none], num_surfaces := -1, layerstack := -1 }
    ∧ (serve_iteration op initial_state { e with n := 0 }).events
        = [Event.sockReadHeader, Event.sockClose, Event.slotWrite (-1)]
    ∧ createBuffer_response
        (createSurface (serve_iteration op initial_state { e with n := 0 }).state
          env_ok.createReq.width env_ok.createReq.height env_ok)
        = { id := 0, result := 0 }
    ∧ (createBuffer (serve_iteration op initial_state { e with n := 0 }).state env_ok).state
        = { surfaces := [none, none], num_surfaces := 0, layerstack := 1 } := by
  have h : (serve_iteration op initial_state { e with n := 0 })
      = { continues := false,
          state := { surfaces := [none, none], num_surfaces := -1, layerstack := -1 },
          events := [Event.sockReadHeader, Event.sockClose, Event.slotWrite (-1)] } := by
    simp only [serve_iteration, if_true]
    rfl
  rw [h]
  refine ⟨rfl, rfl, ?_, ?_⟩ <;> decide

/-- With one or two surfaces the purge does what the specification says: the
count returns to 0, both slots are empty, the layerstack is unresolved, and
the surfaces are released last-created first. -/
theorem purge_of_nonempty_session (op : Opcodes) (e : Env) (a b : Nat) (l : Int) :
    serve_iteration op { surfaces := [some a, none], num_surfaces := 1, layerstack := l }
        { e with n := 0 }
      = { continues := false, state := initial_state,
          events := [Event.sockReadHeader, Event.sockClose,
            Event.slotWrite 0, Event.surfaceRelease a] }
    ∧ serve_iteration op { surfaces := [some a, some b], num_surfaces := 2, layerstack := l }
        { e with n := 0 }
      = { continues := false, state := initial_state,
          events := [Event.sockReadHeader, Event.sockClose,
            Event.slotWrite 1, Event.surfaceRelease b,
            Event.slotWrite 0, Event.surfaceRelease a] } := by
  constructor <;> simp only [serve_iteration, if_true] <;> rfl

/-! ## Creation order -/

theorem length_slotSet (surfaces : List (Option Nat)) (idx : Int) (v : Option Nat) :
    (slotSet surfaces idx v).length = surfaces.length := by
  unfold slotSet
  split <;> simp

theorem slotGet_slotSet_self (surfaces : List (Option Nat)) (idx : Int) (v : Option Nat)
    (h0 : 0 ≤ idx) (h1 : idx < MAX_SURFACES) (hl : surfaces.length = 2) :
    slotGet (slotSet surfaces idx v) idx = v := by
  have hlt : idx.toNat < surfaces.length := by
    unfold MAX_SURFACES at h1
    omega
  simp [slotGet, slotSet, h0, h1, List.getD_eq_getElem?_getD, List.getElem?_set, hlt]

theorem slotGet_slotSet_ne (surfaces : List (Option Nat)) (i j : Int) (v : Option Nat)
    (hij : i ≠ j) : slotGet (slotSet surfaces i v) j = slotGet surfaces j := by
  unfold slotGet slotSet
  by_cases hj : 0 ≤ j ∧ j < MAX_SURFACES
  · by_cases hi : 0 ≤ i ∧ i < MAX_SURFACES
    · have hne : i.toNat ≠ j.toNat := by omega
      simp [hj, hi, List.getD_eq_getElem?_getD, List.getElem?_set, hne]
    · simp [hi]
  · simp [hj]

/-- The two ways `createSurface` can end: it returns 0, having stored the
surface the compositor handed out in slot `num_surfaces` and raised the count
by one; or it returns -1 and leaves the count and the slots alone. -/
theorem createSurface_cases (state : mflinger_state) (w h : Nat) (e : Env) :
    ((createSurface state w h e).ret = 0
      ∧ state.num_surfaces < MAX_SURFACES
      ∧ (∃ s, e.newSurface = some s)
      ∧ (createSurface state w h e).state.surfaces
          = slotSet state.surfaces state.num_surfaces e.newSurface
      ∧ (createSurface state w h e).state.num_surfaces = state.num_surfaces + 1)
    ∨ ((createSurface state w h e).ret = -1
      ∧ (createSurface state w h e).state.surfaces = state.surfaces
      ∧ (createSurface state w h e).state.num_surfaces = state.num_surfaces) := by
  have hl1 : (lazy_layerstack state e).1.surfaces = state.surfaces := by
    unfold lazy_layerstack; split <;> rfl
  have hl2 : (lazy_layerstack state e).1.num_surfaces = state.num_surfaces := by
    unfold lazy_layerstack; split <;> rfl
  by_cases h1 : state.num_surfaces ≥ MAX_SURFACES
  · right; simp [createSurface, h1]
  · cases hS : e.newSurface with
    | none => right; simp [createSurface, h1, hS, hl1, hl2]
    | some s =>
      by_cases hv : e.surfaceValid = false
      · right; simp [createSurface, h1, hS, hv, hl1, hl2]
      · by_cases hr : NO_ERROR = Int.lor (Int.lor (Int.lor NO_ERROR e.setLayerStatus)
            e.setLayerStackStatus) e.showStatus
        · left
          have h1b : state.num_surfaces < MAX_SURFACES := by omega
          simp [createSurface, h1, hS, hv, ← hr, hl1, hl2, h1b]
        · right; simp [createSurface, h1, hS, hv, hr, hl1, hl2]

theorem createBuffer_state (state : mflinger_state) (e : Env) :
    (createBuffer state e).state
      = (createSurface state e.createReq.width e.createReq.height e).state := by
  unfold createBuffer
  simp only []
  split <;> rfl

/-- A pass of the serve loop that reads the CreateBuffer opcode is the header
read followed by `createBuffer`; `create_session` chains these passes. -/
theorem serve_iteration_create (op : Opcodes) (state : mflinger_state) (e : Env)
    (hn : e.n ≠ 0) (hb : e.buf = op.M_CREATE_BUFFER) :
    serve_iteration op state e
      = { continues := true, state := (createBuffer state e).state,
          events := Event.sockReadHeader :: (createBuffer state e).events } := by
  simp [serve_iteration, hn, hb]

/-- Along a sequence of CreateBuffer requests the count never decreases and
the slots below the count keep their content. -/
theorem create_session_final_keeps (envs : List Env) :
    ∀ state : mflinger_state,
      state.num_surfaces ≤ (create_session_final state envs).num_surfaces
      ∧ ∀ idx : Int, idx < state.num_surfaces →
          slotGet (create_session_final state envs).surfaces idx
            = slotGet state.surfaces idx := by
  induction envs with
  | nil => intro state; exact ⟨le_refl _, fun _ _ => rfl⟩
  | cons e rest ih =>
    intro state
    simp only [create_session_final]
    have hst := createBuffer_state state e
    rcases createSurface_cases state e.createReq.width e.createReq.height e with
      ⟨_, _, _, hsurf, hnum⟩ | ⟨_, hsurf, hnum⟩
    · obtain ⟨ih1, ih2⟩ := ih (createBuffer state e).state
      rw [hst] at ih1 ih2
      rw [hst]
      constructor
      · omega
      · intro idx hidx
        rw [ih2 idx (by omega), hsurf]
        exact slotGet_slotSet_ne _ _ _ _ (by omega)
    · obtain ⟨ih1, ih2⟩ := ih (createBuffer state e).state
      rw [hst] at ih1 ih2
      rw [hst]
      constructor
      · omega
      · intro idx hidx
        rw [ih2 idx (by omega), hsurf]

/-- Creation order from an arbitrary well-formed start: the `k`-th successful
request (counting from 0) of a session entered with count `num_surfaces`
answers id `num_surfaces + k + 1` and fills slot `num_surfaces + k`. -/
theorem create_session_order (envs : List Env) :
    ∀ (state : mflinger_state) (k : Nat) (c : Created),
      0 ≤ state.num_surfaces → state.surfaces.length = 2 →
      ((create_session state envs).filter Created.successful)[k]? = some c →
      c.response.result = 0
      ∧ c.response.id = state.num_surfaces + k + 1
      ∧ state.num_surfaces + k + 1 ≤ MAX_SURFACES
      ∧ (∃ s, c.env.newSurface = some s)
      ∧ c.outcome.state.num_surfaces = state.num_surfaces + k + 1
      ∧ slotGet c.outcome.state.surfaces (state.num_surfaces + k) = c.env.newSurface
      ∧ Event.sockWriteCreate c.response ∈ c.outcome.events
      ∧ state.num_surfaces + k + 1 ≤ (create_session_final state envs).num_surfaces
      ∧ slotGet (create_session_final state envs).surfaces (state.num_surfaces + k)
          = c.env.newSurface := by
  induction envs with
  | nil => intro state k c _ _ h; simp [create_session] at h
  | cons e rest ih =>
    intro state k c h0 hlen h
    have hst := createBuffer_state state e
    simp only [create_session, create_session_final] at h ⊢
    rcases createSurface_cases state e.createReq.width e.createReq.height e with
      ⟨hret, hlt, hs, hsurf, hnum⟩ | ⟨hret, hsurf, hnum⟩
    · -- this request succeeds
      have hsucc : Created.successful
          { env := e, outcome := createBuffer state e,
            response := createBuffer_response
              (createSurface state e.createReq.width e.createReq.height e) } = true := by
        simp [Created.successful, createBuffer_response, hret]
      rw [List.filter_cons_of_pos hsucc] at h
      cases k with
      | zero =>
        simp only [List.getElem?_cons_zero, Option.some.injEq] at h
        subst h
        obtain ⟨k1, k2⟩ := create_session_final_keeps rest (createBuffer state e).state
        rw [hst] at k1 k2
        have hself : slotGet (slotSet state.surfaces state.num_surfaces e.newSurface)
            state.num_surfaces = e.newSurface :=
          slotGet_slotSet_self _ _ _ h0 hlt hlen
        refine ⟨?_, ?_, ?_, hs, ?_, ?_, ?_, ?_, ?_⟩
        · simp [createBuffer_response, hret]
        · simp [createBuffer_response, hret, hnum]
        · simp only [Nat.cast_zero, add_zero]; omega
        · simp [hst, hnum]
        · simp [hst, hsurf, hself]
        · unfold createBuffer
          simp only []
          split <;> simp
        · rw [hst]; simp only [Nat.cast_zero, add_zero]; omega
        · rw [hst]
          simp only [Nat.cast_zero, add_zero]
          rw [k2 state.num_surfaces (by omega), hsurf, hself]
      | succ j =>
        simp only [List.getElem?_cons_succ] at h
        have hlen2 : (createBuffer state e).state.surfaces.length = 2 := by
          rw [hst, hsurf, length_slotSet]; exact hlen
        have h02 : 0 ≤ (createBuffer state e).state.num_surfaces := by
          rw [hst, hnum]; omega
        have := ih (createBuffer state e).state j c h02 hlen2 h
        rw [hst, hnum] at this
        rw [hst]
        have hc : state.num_surfaces + ((j + 1 : Nat) : Int)
            = state.num_surfaces + 1 + (j : Int) := by push_cast; ring
        rw [hc]
        exact this
    · -- this request fails
      have hfail : ¬ Created.successful
          { env := e, outcome := createBuffer state e,
            response := createBuffer_response
              (createSurface state e.createReq.width e.createReq.height e) } = true := by
        simp [Created.successful, createBuffer_response, hret]
      rw [List.filter_cons_of_neg hfail] at h
      have hlen2 : (createBuffer state e).state.surfaces.length = 2 := by
        rw [hst, hsurf]; exact hlen
      have h02 : 0 ≤ (createBuffer state e).state.num_surfaces := by
        rw [hst, hnum]; exact h0
      have := ih (createBuffer state e).state k c h02 hlen2 h
      rw [hst, hnum] at this
      rw [hst]
      exact this

theorem nat_lor_eq_zero (a b : Nat) : a ||| b = 0 ↔ a = 0 ∧ b = 0 := by
  constructor
  · intro h
    constructor
    · apply Nat.eq_of_testBit_eq
      intro i
      have := congrArg (fun n => n.testBit i) h
      simp [Nat.testBit_or] at this
      simp [this.1]
    · apply Nat.eq_of_testBit_eq
      intro i
      have := congrArg (fun n => n.testBit i) h
      simp [Nat.testBit_or] at this
      simp [this.2]
  · rintro ⟨rfl, rfl⟩; rfl

/-- The bitwise or of two status values is `NO_ERROR` exactly when both are. -/
theorem int_lor_eq_zero (a b : Int) : Int.lor a b = 0 ↔ a = 0 ∧ b = 0 := by
  cases a with
  | ofNat m =>
    cases b with
    | ofNat n =>
      simp only [Int.lor]
      constructor
      · intro h
        have h2 : m ||| n = 0 := by exact_mod_cast h
        rw [nat_lor_eq_zero] at h2
        exact ⟨by simp [h2.1], by simp [h2.2]⟩
      · rintro ⟨h1, h2⟩
        have e1 : m = 0 := by simpa using h1
        have e2 : n = 0 := by simpa using h2
        subst e1 e2
        rfl
    | negSucc n =>
      simp only [Int.lor]
      constructor
      · intro h; exact absurd h (by simp)
      · rintro ⟨_, h2⟩; exact absurd h2 (by simp)
  | negSucc m =>
    cases b with
    | ofNat n =>
      simp only [Int.lor]
      constructor
      · intro h; exact absurd h (by simp)
      · rintro ⟨h1, _⟩; exact absurd h1 (by simp)
    | negSucc n =>
      simp only [Int.lor]
      constructor
      · intro h; exact absurd h (by simp)
      · rintro ⟨h1, _⟩; exact absurd h1 (by simp)

/-- Function `createSurface` returns 0 exactly when there is capacity left and
the provider succeeds. -/
theorem createSurface_ret_iff (state : mflinger_state) (w h : Nat) (e : Env) :
    (createSurface state w h e).ret = 0
      ↔ (state.num_surfaces < MAX_SURFACES ∧ provider_succeeds e) := by
  have hlor : (NO_ERROR = Int.lor (Int.lor (Int.lor NO_ERROR e.setLayerStatus)
        e.setLayerStackStatus) e.showStatus)
      ↔ (e.setLayerStatus = NO_ERROR ∧ e.setLayerStackStatus = NO_ERROR
          ∧ e.showStatus = NO_ERROR) := by
    unfold NO_ERROR
    rw [eq_comm, int_lor_eq_zero, int_lor_eq_zero, int_lor_eq_zero]
    tauto
  unfold provider_succeeds
  by_cases h1 : state.num_surfaces ≥ MAX_SURFACES
  · have hret : (createSurface state w h e).ret = -1 := by simp [createSurface, h1]
    rw [hret]
    constructor
    · intro h0; exact absurd h0 (by decide)
    · rintro ⟨hlt, _⟩; omega
  · have h2 : state.num_surfaces < MAX_SURFACES := by omega
    cases hS : e.newSurface with
    | none =>
      have hret : (createSurface state w h e).ret = -1 := by simp [createSurface, h1, hS]
      rw [hret]
      constructor
      · intro h0; exact absurd h0 (by decide)
      · rintro ⟨_, hsome, _⟩; simp at hsome
    | some s =>
      by_cases hv : e.surfaceValid = false
      · have hret : (createSurface state w h e).ret = -1 := by
          simp [createSurface, h1, hS, hv]
        rw [hret]
        constructor
        · intro h0; exact absurd h0 (by decide)
        · rintro ⟨_, _, hval, _⟩; rw [hv] at hval; exact absurd hval (by decide)
      · have hv2 : e.surfaceValid = true := by simpa using hv
        by_cases hr : NO_ERROR = Int.lor (Int.lor (Int.lor NO_ERROR e.setLayerStatus)
            e.setLayerStackStatus) e.showStatus
        · have hs := hlor.mp hr
          have hret : (createSurface state w h e).ret = 0 := by
            simp [createSurface, h1, hS, hv, ← hr]
          rw [hret]
          constructor
          · intro _; exact ⟨h2, by simp, hv2, hs.1, hs.2.1, hs.2.2⟩
          · intro _; rfl
        · have hret : (createSurface state w h e).ret = -1 := by
            simp [createSurface, h1, hS, hv, hr]
          rw [hret]
          constructor
          · intro h0; exact absurd h0 (by decide)
          · rintro ⟨_, _, _, hh⟩; exact absurd (hlor.mpr hh) hr

/-- The record `createBuffer` writes says "success" exactly when
`createSurface` returned 0; otherwise it is `{id -1, result -1}`. -/
theorem createBuffer_response_result (r : Outcome) :
    ((createBuffer_response r).result = 0 ↔ r.ret = 0)
    ∧ (r.ret ≠ 0 → createBuffer_response r = { id := -1, result := -1 })
    ∧ (r.ret = 0 → createBuffer_response r = { id := r.state.num_surfaces, result := 0 }) := by
  unfold createBuffer_response
  by_cases h : r.ret = 0
  · simp [h]
  · simp [h]

/-- Position of an element among the elements that satisfy a test. -/
theorem filter_index_of_take {α : Type} (p : α → Bool) (l : List α) :
    ∀ (i : Nat) (c : α), l[i]? = some c → p c = true →
      (l.filter p)[((l.take i).filter p).length]? = some c := by
  induction l with
  | nil => intro i c h; simp at h
  | cons a t ih =>
    intro i c h hp
    cases i with
    | zero =>
      simp only [List.getElem?_cons_zero, Option.some.injEq] at h
      subst h
      simp [List.filter_cons, hp]
    | succ j =>
      simp only [List.getElem?_cons_succ] at h
      have := ih j c h hp
      by_cases ha : p a = true
      · simp [List.take_succ_cons, List.filter_cons, ha, this]
      · simp [List.take_succ_cons, List.filter_cons, ha, this]

/-- A request of a session succeeds exactly when fewer than `MAX_SURFACES`
surfaces exist before it (those the session started with plus those of the
successful requests before it) and the provider succeeds on it. -/
theorem create_session_success_iff (envs : List Env) :
    ∀ (state : mflinger_state) (i : Nat) (c : Created),
      (create_session state envs)[i]? = some c →
      (c.response.result = 0
        ↔ (state.num_surfaces + (successes_before (create_session state envs) i : Int)
              < MAX_SURFACES
            ∧ provider_succeeds c.env))
      ∧ (c.response.result ≠ 0 → c.response = { id := -1, result := -1 }) := by
  induction envs with
  | nil => intro state i c h; simp [create_session] at h
  | cons e rest ih =>
    intro state i c h
    have hst := createBuffer_state state e
    have hres := createBuffer_response_result
      (createSurface state e.createReq.width e.createReq.height e)
    have hiff := createSurface_ret_iff state e.createReq.width e.createReq.height e
    cases i with
    | zero =>
      simp only [create_session, List.getElem?_cons_zero, Option.some.injEq] at h
      subst h
      simp only [successes_before, List.take_zero, List.filter_nil, List.length_nil,
        Nat.cast_zero, add_zero]
      refine ⟨by rw [hres.1, hiff], ?_⟩
      intro hne
      exact hres.2.1 (fun h0 => hne (hres.1.mpr h0))
    | succ j =>
      simp only [create_session, List.getElem?_cons_succ] at h
      obtain ⟨ih1, ih2⟩ := ih (createBuffer state e).state j c h
      refine ⟨?_, ih2⟩
      rw [ih1, hst]
      have hcount : ((createSurface state e.createReq.width e.createReq.height e).state.num_surfaces
            + (successes_before (create_session
                (createSurface state e.createReq.width e.createReq.height e).state rest) j : Int))
          = state.num_surfaces + (successes_before (create_session state (e :: rest))
              (j + 1) : Int) := by
        simp only [successes_before, create_session, List.take_succ_cons, List.filter_cons,
          hst]
        rcases createSurface_cases state e.createReq.width e.createReq.height e with
          ⟨hret, _, _, _, hnum⟩ | ⟨hret, _, hnum⟩
        · have hs : Created.successful
              { env := e, outcome := createBuffer state e,
                response := createBuffer_response
                  (createSurface state e.createReq.width e.createReq.height e) } = true := by
            simp [Created.successful, createBuffer_response, hret]
          rw [if_pos hs, hnum, List.length_cons]
          push_cast
          ring
        · have hs : ¬ Created.successful
              { env := e, outcome := createBuffer state e,
                response := createBuffer_response
                  (createSurface state e.createReq.width e.createReq.height e) } = true := by
            simp [Created.successful, createBuffer_response, hret]
          rw [if_neg hs, hnum]
      rw [hcount]

/-- With a provider that succeeds on every request, the requests of a session
succeed in order until the capacity is used up and fail from then on. -/
theorem create_session_all_succeed (envs : List Env) :
    ∀ (state : mflinger_state) (i : Nat) (c : Created),
      (∀ e ∈ envs, provider_succeeds e) →
      (create_session state envs)[i]? = some c →
      c.response = if state.num_surfaces + (i : Int) < MAX_SURFACES
        then { id := state.num_surfaces + (i : Int) + 1, result := 0 }
        else { id := -1, result := -1 } := by
  induction envs with
  | nil => intro state i c _ h; simp [create_session] at h
  | cons e rest ih =>
    intro state i c hall h
    have hst := createBuffer_state state e
    have hres := createBuffer_response_result
      (createSurface state e.createReq.width e.createReq.height e)
    have hiff := createSurface_ret_iff state e.createReq.width e.createReq.height e
    have he : provider_succeeds e := hall e (List.mem_cons_self _ _)
    have hrest : ∀ e2 ∈ rest, provider_succeeds e2 :=
      fun e2 h2 => hall e2 (List.mem_cons_of_mem _ h2)
    rcases createSurface_cases state e.createReq.width e.createReq.height e with
      ⟨hret, hlt, _, _, hnum⟩ | ⟨hret, _, hnum⟩
    · cases i with
      | zero =>
        simp only [create_session, List.getElem?_cons_zero, Option.some.injEq] at h
        subst h
        simp only [Nat.cast_zero, add_zero]
        rw [if_pos hlt, hres.2.2 hret, hnum]
      | succ j =>
        simp only [create_session, List.getElem?_cons_succ] at h
        have := ih (createBuffer state e).state j c hrest h
        rw [hst, hnum] at this
        rw [this]
        have hc : state.num_surfaces + 1 + (j : Int)
            = state.num_surfaces + ((j + 1 : Nat) : Int) := by push_cast; ring
        rw [hc]
    · have hfull : ¬ state.num_surfaces < MAX_SURFACES := by
        intro hlt
        have := hiff.mpr ⟨hlt, he⟩
        rw [hret] at this
        exact absurd this (by decide)
      cases i with
      | zero =>
        simp only [create_session, List.getElem?_cons_zero, Option.some.injEq] at h
        subst h
        simp only [Nat.cast_zero, add_zero]
        rw [if_neg hfull]
        exact hres.2.1 (by rw [hret]; decide)
      | succ j =>
        simp only [create_session, List.getElem?_cons_succ] at h
        have := ih (createBuffer state e).state j c hrest h
        rw [hst, hnum] at this
        rw [this]
        have h1 : ¬ state.num_surfaces + (j : Int) < MAX_SURFACES := by omega
        have h2 : ¬ state.num_surfaces + ((j + 1 : Nat) : Int) < MAX_SURFACES := by
          push_cast; omega
        rw [if_neg h1, if_neg h2]

/-- C3: in a session started from the initial state, for every sequence of
CreateBuffer requests and whatever the provider answers, a request succeeds
(answers result = 0) exactly when fewer than MAX_SURFACES requests succeeded
before it and the provider succeeds on it. The `k`-th successful request
(`k - 1` successful ones before it) answers result = 0 and id = k, with
k ≤ MAX_SURFACES; the surface the compositor handed out is stored in slot k-1;
the id satisfies the validity rule tested by `updateBuffer`, `lockBuffer` and
`unlockAndPostBuffer`, both right after the request and at the end of the
sequence; the id answered is positive. A request that does not succeed answers
`{id -1, result -1}`. With a provider that succeeds on every request, request
number `i` (counted from 0) answers `{id i+1, result 0}` while
`i < MAX_SURFACES` and `{id -1, result -1}` afterwards. -/
theorem kth_successful_create (envs : List Env) (i : Nat) (c : Created)
    (h : (create_session initial_state envs)[i]? = some c) :
    (c.response.result = 0
      ↔ ((successes_before (create_session initial_state envs) i : Int) < MAX_SURFACES
          ∧ provider_succeeds c.env))
    ∧ (c.response.result = 0 →
        c.response.id = (successes_before (create_session initial_state envs) i : Int) + 1
        ∧ (successes_before (create_session initial_state envs) i : Int) + 1 ≤ MAX_SURFACES
        ∧ Event.sockWriteCreate c.response ∈ c.outcome.events
        ∧ (∃ s, c.env.newSurface = some s)
        ∧ slotGet c.outcome.state.surfaces
            (successes_before (create_session initial_state envs) i) = c.env.newSurface
        ∧ valid_id c.outcome.state c.response.id
        ∧ slotGet (create_session_final initial_state envs).surfaces
            (successes_before (create_session initial_state envs) i) = c.env.newSurface
        ∧ valid_id (create_session_final initial_state envs) c.response.id
        ∧ 0 < c.response.id)
    ∧ (c.response.result ≠ 0 → c.response = { id := -1, result := -1 })
    ∧ ((∀ e ∈ envs, provider_succeeds e) →
        c.response = if (i : Int) < MAX_SURFACES
          then { id := (i : Int) + 1, result := 0 }
          else { id := -1, result := -1 }) := by
  have hz : initial_state.num_surfaces = 0 := rfl
  obtain ⟨s1, s2⟩ := create_session_success_iff envs initial_state i c h
  rw [hz, zero_add] at s1
  refine ⟨s1, ?_, s2, ?_⟩
  · intro hsucc
    have hp : Created.successful c = true := by simp [Created.successful, hsucc]
    have hf := filter_index_of_take Created.successful (create_session initial_state envs)
      i c h hp
    have hm := create_session_order envs initial_state
      (successes_before (create_session initial_state envs) i) c (by decide) (by decide) hf
    obtain ⟨h1, h2, h3, h4, h5, h6, h7, h8, h9⟩ := hm
    rw [hz] at h2 h3 h5 h6 h8 h9
    simp only [zero_add] at h2 h3 h5 h6 h8 h9
    have hmax : MAX_SURFACES = 2 := rfl
    rw [hmax] at h3
    have hidx : buffer_id_to_index c.response.id
        = (successes_before (create_session initial_state envs) i : Int) := by
      rw [h2]; unfold buffer_id_to_index wrap32; omega
    refine ⟨h2, by rw [hmax]; exact h3, h7, h4, h6, ?_, h9, ?_, by omega⟩
    · unfold valid_id; rw [hidx, h5]; omega
    · unfold valid_id; rw [hidx]; omega
  · intro hall
    have := create_session_all_succeed envs initial_state i c hall h
    rw [hz] at this
    simp only [zero_add] at this
    exact this

theorem kth_successful_create_witness :
    (create_session initial_state [env_ok, env_query_fails, env_ok])[1]?
      = some { env := env_query_fails,
               outcome := createBuffer
                 { surfaces := [some 7, none], num_surfaces := 1, layerstack := 1 }
                 env_query_fails,
               response := { id := 2, result := 0 } }
    ∧ (({ id := 2, result := 0 } : MCreateBufferResponse)
        = if ((1 : Nat) : Int) < MAX_SURFACES
          then { id := ((1 : Nat) : Int) + 1, result := 0 }
          else { id := -1, result := -1 }) :=
  ⟨by decide,
   (kth_successful_create [env_ok, env_query_fails, env_ok] 1
      { env := env_query_fails,
        outcome := createBuffer
          { surfaces := [some 7, none], num_surfaces := 1, layerstack := 1 }
          env_query_fails,
        response := { id := 2, result := 0 } } (by decide)).2.2.2 (by decide)⟩

/-! ## Output target -/

/-- C11: for every broker state whose count is a 32-bit `int`, every valid id
(`0 ≤ id-1 < num_surfaces`) and every position, `updateBuffer` with a
succeeding provider returns 0; its only surface operation is one `setPosition`
to `(xpos, ypos)` on the content of slot `id-1`, inside one global transaction;
it makes no other provider call (no create, lock, unlock-and-post, layer,
layerstack, show, display query or release), writes to no slot, and leaves the
broker state (count, slots, layerstack) as it was. The broker keeps no lock
state, so this holds whether or not the surface is locked. -/
theorem updateBuffer_repositions (state : mflinger_state) (e : Env) (id xpos ypos : Int)
    (hid : 0 ≤ id - 1 ∧ id - 1 < state.num_surfaces)
    (h32 : state.num_surfaces ≤ 2147483647) :
    updateBuffer state
        { e with updateReq := { id := id, xpos := xpos, ypos := ypos },
                 setPositionStatus := 0 }
      = { ret := 0, state := state,
          events := [Event.sockReadRequest, Event.slotRead (id - 1),
            Event.openGlobalTransaction,
            Event.setPosition (slotGet state.surfaces (id - 1)) xpos ypos,
            Event.closeGlobalTransaction false] }
    ∧ provider_calls (updateBuffer state
        { e with updateReq := { id := id, xpos := xpos, ypos := ypos },
                 setPositionStatus := 0 }).events
      = [Event.openGlobalTransaction,
         Event.setPosition (slotGet state.surfaces (id - 1)) xpos ypos,
         Event.closeGlobalTransaction false] := by
  have hidx : buffer_id_to_index id = id - 1 := by
    unfold buffer_id_to_index wrap32
    omega
  have hv : 0 ≤ buffer_id_to_index id ∧ buffer_id_to_index id < state.num_surfaces := by
    rw [hidx]; exact hid
  have hlor : Int.lor NO_ERROR 0 = NO_ERROR := by decide
  have hu : updateBuffer state
      { e with updateReq := { id := id, xpos := xpos, ypos := ypos },
               setPositionStatus := 0 }
    = { ret := 0, state := state,
        events := [Event.sockReadRequest, Event.slotRead (id - 1),
          Event.openGlobalTransaction,
          Event.setPosition (slotGet state.surfaces (id - 1)) xpos ypos,
          Event.closeGlobalTransaction false] } := by
    simp only [updateBuffer, hv, and_self, if_true, hlor, hidx, ne_eq, not_true_eq_false,
      if_false]
    rw [if_pos hid]
  rw [hu]
  exact ⟨rfl, by simp [provider_calls, Event.isProviderCall]⟩

theorem updateBuffer_repositions_witness :
    updateBuffer { surfaces := [some 7, some 8], num_surfaces := 2, layerstack := 1 }
        { env_ok with updateReq := { id := 2, xpos := 50, ypos := 60 },
                      setPositionStatus := 0 }
      = { ret := 0,
          state := { surfaces := [some 7, some 8], num_surfaces := 2, layerstack := 1 },
          events := [Event.sockReadRequest, Event.slotRead (2 - 1),
            Event.openGlobalTransaction,
            Event.setPosition (some 8) 50 60,
            Event.closeGlobalTransaction false] } :=
  (updateBuffer_repositions { surfaces := [some 7, some 8], num_surfaces := 2, layerstack := 1 }
    env_ok 2 50 60 (by decide) (by decide)).1

/-! ## Failed header reads -/

/-- C12 (the code departs from it): after a header read that fails (`n < 0`)
the loop logs the error and, having no `continue`, goes on to `switch (buf)`
with whatever the header word variable holds. When that is the CreateBuffer
opcode, `createBuffer` is dispatched: from the initial state the pass creates a
surface (count 0 becomes 1), and writes the response `{id 1, result 0}`. The
pass does not end the session. -/
theorem failed_read_dispatches (op : Opcodes) (state : mflinger_state) (e : Env) :
    serve_iteration op state { e with n := -1, buf := op.M_CREATE_BUFFER }
      = { continues := true,
          state := (createBuffer state { e with n := -1, buf := op.M_CREATE_BUFFER }).state,
          events := Event.sockReadHeader ::
            (createBuffer state { e with n := -1, buf := op.M_CREATE_BUFFER }).events }
    ∧ (serve_iteration opcodes_example initial_state
          { env_ok with n := -1, buf := opcodes_example.M_CREATE_BUFFER }).state
        = { surfaces := [some 7, none], num_surfaces := 1, layerstack := 1 }
    ∧ responses (serve_iteration opcodes_example initial_state
          { env_ok with n := -1, buf := opcodes_example.M_CREATE_BUFFER }).events = [0]
    ∧ Event.sockWriteCreate { id := 1, result := 0 }
        ∈ (serve_iteration opcodes_example initial_state
            { env_ok with n := -1, buf := opcodes_example.M_CREATE_BUFFER }).events := by
  refine ⟨?_, by decide, by decide, by decide⟩
  simp [serve_iteration]

/-- What does hold after a failed header read: the pass never ends the session
or closes the connection, and when the header word variable holds none of the
four opcodes it does nothing beyond the read. -/
theorem failed_read_continues (op : Opcodes) (state : mflinger_state) (e : Env)
    (hn : e.n < 0) :
    (serve_iteration op state e).continues = true
    ∧ Event.sockClose ∉ (serve_iteration op state e).events := by
  have h0 : e.n ≠ 0 := by omega
  have hc : ∀ st ev, Event.sockClose ∉ (createBuffer st ev).events := by
    intro st ev hmem
    have hcs : Event.sockClose ∉ (createSurface st ev.createReq.width ev.createReq.height
        ev).events := by
      intro hm
      by_cases h1 : st.num_surfaces ≥ MAX_SURFACES
      · simp [createSurface, h1] at hm
      · have hl : Event.sockClose ∉ (lazy_layerstack st ev).2 := by
          unfold lazy_layerstack assign_layerstack
          split_ifs <;> simp
        have hs : Event.sockClose ∉ slotStoreEvents (lazy_layerstack st ev).1.surfaces
            (lazy_layerstack st ev).1.num_surfaces := by
          unfold slotStoreEvents
          split <;> simp
        cases hS : ev.newSurface with
        | none => simp [createSurface, h1, hS, hl] at hm
        | some s =>
          by_cases hv : ev.surfaceValid = false
          · simp [createSurface, h1, hS, hv, hl] at hm
          · by_cases hr : NO_ERROR = Int.lor (Int.lor (Int.lor NO_ERROR ev.setLayerStatus)
                ev.setLayerStackStatus) ev.showStatus
            · simp [createSurface, h1, hS, hv, ← hr, hl, hs] at hm
            · simp [createSurface, h1, hS, hv, hr, hl] at hm
    unfold createBuffer at hmem
    simp only [] at hmem
    split at hmem <;> simp [hcs] at hmem
  unfold serve_iteration
  rw [if_neg h0]
  split_ifs
  · exact ⟨rfl, by simp [hc]⟩
  · refine ⟨rfl, ?_⟩
    simp only [updateBuffer]
    split_ifs <;> simp
  · refine ⟨rfl, ?_⟩
    simp only [lockBuffer, sendfd]
    split_ifs <;> simp
  · refine ⟨rfl, ?_⟩
    simp only [unlockAndPostBuffer]
    split_ifs <;> simp
  · exact ⟨rfl, by simp⟩

/-! ## Bounds of the surface count -/

/-- C14 (the code departs from it): the bounds do not hold in every reachable
state. A session that creates no surface and disconnects leaves
`num_surfaces = -1`, because the `do … while` loop of `purge_surfaces` runs its
body once on the empty array, and that body writes `surfaces[-1]`. A second
empty session leaves -2 and writes `surfaces[-2]`; a CreateBuffer that follows
the first one stores its surface through index -1. -/
theorem count_leaves_bounds (op : Opcodes) (e : Env) :
    (main_loop op initial_state [{ e with n := 0 }]).1
        = { surfaces := [none, none], num_surfaces := -1, layerstack := -1 }
    ∧ ¬ count_in_bounds (main_loop op initial_state [{ e with n := 0 }]).1
    ∧ slot_indices (main_loop op initial_state [{ e with n := 0 }]).2 = [-1]
    ∧ ¬ index_in_bounds (-1)
    ∧ (main_loop op initial_state [{ e with n := 0 }, { e with n := 0 }]).1.num_surfaces = -2
    ∧ slot_indices (main_loop op initial_state [{ e with n := 0 }, { e with n := 0 }]).2
        = [-1, -2]
    ∧ slot_indices (main_loop opcodes_example initial_state
          [{ env_ok with n := 0 }, { env_ok with buf := opcodes_example.M_CREATE_BUFFER }]).2
        = [-1, -1] := by
  have h1 : serve_iteration op initial_state { e with n := 0 }
      = { continues := false,
          state := { surfaces := [none, none], num_surfaces := -1, layerstack := -1 },
          events := [Event.sockReadHeader, Event.sockClose, Event.slotWrite (-1)] } := by
    simp only [serve_iteration, if_true]
    rfl
  have h2 : serve_iteration op
        { surfaces := [none, none], num_surfaces := -1, layerstack := -1 } { e with n := 0 }
      = { continues := false,
          state := { surfaces := [none, none], num_surfaces := -2, layerstack := -1 },
          events := [Event.sockReadHeader, Event.sockClose, Event.slotWrite (-2)] } := by
    simp only [serve_iteration, if_true]
    rfl
  refine ⟨?_, ?_, ?_, by decide, ?_, ?_, by decide⟩
  · simp only [main_loop, h1]
  · simp only [main_loop, h1]
    decide
  · simp only [main_loop, h1]
    decide
  · simp only [main_loop, h1, h2]
  · simp only [main_loop, h1, h2]
    decide

/-- The loop of `purge_surfaces` ends with a count that is not positive. -/
theorem purge_loop_count (fuel : Nat) :
    ∀ state : mflinger_state, purge_iterations state.num_surfaces ≤ fuel →
      (purge_loop fuel state).1.num_surfaces ≤ 0 := by
  induction fuel with
  | zero =>
    intro state h
    unfold purge_iterations at h
    split at h <;> omega
  | succ n ih =>
    intro state h
    simp only [purge_loop]
    by_cases hpos : wrap32 (state.num_surfaces - 1) > 0
    · rw [if_pos hpos]
      apply ih
      have hn : purge_iterations state.num_surfaces
          = (wrap32 (state.num_surfaces - 1)).toNat + 1 := by
        unfold purge_iterations
        rw [if_pos hpos]
      rw [hn] at h
      have hw : wrap32 (wrap32 (state.num_surfaces - 1) - 1)
          = wrap32 (state.num_surfaces - 1) - 1 := by
        unfold wrap32 at hpos ⊢
        omega
      simp only []
      unfold purge_iterations
      rw [hw]
      split <;> omega
    · rw [if_neg hpos]
      simp only []
      omega

theorem updateBuffer_state (state : mflinger_state) (e : Env) :
    (updateBuffer state e).state = state := by
  simp only [updateBuffer]
  split_ifs <;> rfl

theorem lockBuffer_state (state : mflinger_state) (e : Env) :
    (lockBuffer state e).state = state := by
  simp only [lockBuffer]
  split_ifs <;> rfl

theorem unlockAndPostBuffer_state (state : mflinger_state) (e : Env) :
    (unlockAndPostBuffer state e).state = state := by
  simp only [unlockAndPostBuffer]
  split_ifs <;> rfl

/-- One pass of the serve loop keeps the count at or below `MAX_SURFACES`. -/
theorem serve_iteration_count_le (op : Opcodes) (state : mflinger_state) (e : Env)
    (h : state.num_surfaces ≤ MAX_SURFACES) :
    (serve_iteration op state e).state.num_surfaces ≤ MAX_SURFACES := by
  unfold serve_iteration
  split_ifs
  · have hp := purge_loop_count (purge_iterations state.num_surfaces) state (le_refl _)
    have hm : MAX_SURFACES = 2 := rfl
    simp only [purge_surfaces]
    omega
  · simp only []
    rw [createBuffer_state]
    rcases createSurface_cases state e.createReq.width e.createReq.height e with
      ⟨_, hlt, _, _, hnum⟩ | ⟨_, _, hnum⟩
    · rw [hnum]; omega
    · rw [hnum]; exact h
  · simp only [updateBuffer_state]; exact h
  · simp only [lockBuffer_state]; exact h
  · simp only [unlockAndPostBuffer_state]; exact h
  · exact h

/-- The half of the bound that does hold: in every state reachable from the
initial state by passes of the serve loop, whatever the provider answers, the
count is at most `MAX_SURFACES`. -/
theorem main_loop_count_le (op : Opcodes) (envs : List Env) :
    ∀ state : mflinger_state, state.num_surfaces ≤ MAX_SURFACES →
      (main_loop op state envs).1.num_surfaces ≤ MAX_SURFACES := by
  induction envs with
  | nil => intro state h; exact h
  | cons e rest ih =>
    intro state h
    simp only [main_loop]
    exact ih _ (serve_iteration_count_le op state e h)

end Mflinger

namespace Mclient

/-! ## Row copy -/

/-- The rows loop when no offset leaves the 32-bit range and a destination row
is at least as long as the bytes copied: every row of the range receives the
first `L` bytes of its source row, every byte outside those row prefixes is
left as it was, and the loop makes one `memcpy` of `L` bytes per row. -/
theorem copy_rows_loop_spec (S B L : Nat) (data : Mem) (row_end : Nat)
    (hL : L ≤ S) (hS : ∀ y, y < row_end → y * S < 4294967296)
    (hB : ∀ y, y < row_end → y * B < 4294967296) :
    ∀ (fuel y : Nat) (bits : Mem), row_end ≤ y + fuel →
      (∀ r i, y ≤ r → r < row_end → i < L →
          (copy_rows_loop S B L data row_end fuel y bits).1 (r * S + i) = data (r * B + i))
      ∧ (∀ a, (∀ r, y ≤ r → r < row_end → ¬ (r * S ≤ a ∧ a < r * S + L)) →
          (copy_rows_loop S B L data row_end fuel y bits).1 a = bits a)
      ∧ (copy_rows_loop S B L data row_end fuel y bits).2
          = (List.range' y (row_end - y)).map
              (fun r => { dst := r * S, src := r * B, len := L }) := by
  intro fuel
  induction fuel with
  | zero =>
    intro y bits h
    have h0 : row_end - y = 0 := by omega
    refine ⟨?_, ?_, ?_⟩
    · intro r i hr hre; omega
    · intro a _; rfl
    · simp [copy_rows_loop, h0]
  | succ n ih =>
    intro y bits h
    by_cases hy : y < row_end
    · have hmS := Nat.mod_eq_of_lt (hS y hy)
      have hmB := Nat.mod_eq_of_lt (hB y hy)
      simp only [copy_rows_loop, hy, if_true, hmS, hmB]
      obtain ⟨i1, i2, i3⟩ := ih (y + 1) (memcpy bits (y * S) data (y * B) L) (by omega)
      refine ⟨?_, ?_, ?_⟩
      · intro r i hr hre hi
        rcases Nat.eq_or_lt_of_le hr with heq | hlt
        · subst heq
          rw [i2]
          · simp [memcpy, hi]
          · intro r2 hr2 _ hc
            have hm := Nat.mul_le_mul_right S hr2
            rw [Nat.add_mul, Nat.one_mul] at hm
            omega
        · exact i1 r i hlt hre hi
      · intro a ha
        rw [i2 a (fun r hr hre => ha r (by omega) hre)]
        have hn := ha y (le_refl y) hy
        simp only [memcpy]
        rw [if_neg hn]
      · rw [i3]
        have hk : row_end - y = (row_end - (y + 1)) + 1 := by omega
        rw [hk, List.range'_succ]
        simp
    · have h0 : row_end - y = 0 := by omega
      refine ⟨?_, ?_, ?_⟩
      · intro r i hr hre; omega
      · intro a _; simp [copy_rows_loop, hy]
      · simp [copy_rows_loop, hy, h0]

/-- The memory the rows loop returns is the memory its recorded `memcpy` calls
produce, whatever the geometry. -/
theorem copy_rows_loop_trace (S B L : Nat) (data : Mem) (row_end : Nat) :
    ∀ (fuel y : Nat) (bits : Mem),
      (copy_rows_loop S B L data row_end fuel y bits).1
        = apply_copies data bits (copy_rows_loop S B L data row_end fuel y bits).2 := by
  intro fuel
  induction fuel with
  | zero => intro y bits; rfl
  | succ n ih =>
    intro y bits
    by_cases hy : y < row_end
    · simp only [copy_rows_loop, hy, if_true]
      rw [ih]
      rfl
    · simp [copy_rows_loop, hy, apply_copies]

theorem toU32_natCast (n : Nat) : toU32 (n : Int) = n % 4294967296 := by
  unfold toU32
  omega

theorem tdiv_natCast_eight (n : Nat) : Int.tdiv (n : Int) 8 = ((n / 8 : Nat) : Int) := by
  have h : (8 : Int) = ((8 : Nat) : Int) := rfl
  rw [h]
  exact (Int.ofNat_tdiv n 8).symm

/-- The quantities `copy_ximage_rows_to_buffer` computes in `uint32_t` are the
plain products when both pixel arrays are smaller than `2^32` bytes, the rows
of a non-empty range lie in both and a destination row holds the bytes copied. -/
theorem copy_ximage_rows_unfold (buf : MBuffer) (bits data : Mem)
    (w h B bpb row_start row_end : Nat)
    (hne : row_start < row_end)
    (hdst : w * (bpb / 8) ≤ buf.stride * 4)
    (hin1 : row_end ≤ h) (hin2 : row_end ≤ buf.height)
    (hsz1 : h * B < 4294967296) (hsz2 : buf.height * (buf.stride * 4) < 4294967296) :
    copy_ximage_rows_to_buffer buf bits (XImage.ofNat w h B bpb) data row_start row_end
      = (0,
         (copy_rows_loop (buf.stride * 4) B (w * (bpb / 8)) data row_end
            (row_end - row_start) row_start bits).1,
         (copy_rows_loop (buf.stride * 4) B (w * (bpb / 8)) data row_end
            (row_end - row_start) row_start bits).2) := by
  have hS : buf.stride * 4 < 4294967296 := by
    have : 1 * (buf.stride * 4) ≤ buf.height * (buf.stride * 4) :=
      Nat.mul_le_mul_right _ (by omega)
    omega
  have hB : B < 4294967296 := by
    have : 1 * B ≤ h * B := Nat.mul_le_mul_right _ (by omega)
    omega
  have hlen : (toU32 (w : Int) * toU32 (Int.tdiv (bpb : Int) 8)) % 4294967296
      = w * (bpb / 8) := by
    rw [tdiv_natCast_eight, toU32_natCast, toU32_natCast]
    rcases Nat.eq_zero_or_pos w with hw | hw
    · subst hw; simp
    · rcases Nat.eq_zero_or_pos (bpb / 8) with hb | hb
      · rw [hb]; simp
      · have h1 : w * 1 ≤ w * (bpb / 8) := Nat.mul_le_mul_left _ hb
        have h2 : 1 * (bpb / 8) ≤ w * (bpb / 8) := Nat.mul_le_mul_right _ hw
        rw [Nat.mod_eq_of_lt (by omega : w < 4294967296),
          Nat.mod_eq_of_lt (by omega : bpb / 8 < 4294967296),
          Nat.mod_eq_of_lt (by omega)]
  simp only [copy_ximage_rows_to_buffer, XImage.ofNat]
  rw [hlen, toU32_natCast, Nat.mod_eq_of_lt hB, Nat.mod_eq_of_lt hS]

/-- Effect of `copy_ximage_rows_to_buffer` when no offset leaves the 32-bit
range: return value, bytes written, bytes left alone, and the `memcpy` calls. -/
theorem copy_ximage_rows_spec (buf : MBuffer) (bits data : Mem)
    (w h B bpb row_start row_end : Nat)
    (hdst : w * (bpb / 8) ≤ buf.stride * 4)
    (hin1 : row_end ≤ h) (hin2 : row_end ≤ buf.height)
    (hsz1 : h * B < 4294967296) (hsz2 : buf.height * (buf.stride * 4) < 4294967296) :
    (copy_ximage_rows_to_buffer buf bits (XImage.ofNat w h B bpb) data row_start row_end).1 = 0
    ∧ (∀ y i, row_start ≤ y → y < row_end → i < w * (bpb / 8) →
        (copy_ximage_rows_to_buffer buf bits (XImage.ofNat w h B bpb) data
            row_start row_end).2.1 (y * (buf.stride * 4) + i)
          = data (y * B + i))
    ∧ (∀ a, (∀ y, row_start ≤ y → y < row_end →
          ¬ (y * (buf.stride * 4) ≤ a ∧ a < y * (buf.stride * 4) + w * (bpb / 8))) →
        (copy_ximage_rows_to_buffer buf bits (XImage.ofNat w h B bpb) data
            row_start row_end).2.1 a = bits a)
    ∧ (copy_ximage_rows_to_buffer buf bits (XImage.ofNat w h B bpb) data
          row_start row_end).2.2
        = (List.range' row_start (row_end - row_start)).map
            (fun y => { dst := y * (buf.stride * 4), src := y * B, len := w * (bpb / 8) }) := by
  by_cases hne : row_start < row_end
  · rw [copy_ximage_rows_unfold buf bits data w h B bpb row_start row_end hne hdst hin1 hin2
      hsz1 hsz2]
    have hS : ∀ y, y < row_end → y * (buf.stride * 4) < 4294967296 := by
      intro y hy
      have : y * (buf.stride * 4) ≤ buf.height * (buf.stride * 4) :=
        Nat.mul_le_mul_right _ (by omega)
      omega
    have hB : ∀ y, y < row_end → y * B < 4294967296 := by
      intro y hy
      have : y * B ≤ h * B := Nat.mul_le_mul_right _ (by omega)
      omega
    obtain ⟨s1, s2, s3⟩ := copy_rows_loop_spec (buf.stride * 4) B (w * (bpb / 8)) data row_end
      hdst hS hB (row_end - row_start) row_start bits (by omega)
    exact ⟨rfl, s1, s2, s3⟩
  · have h0 : row_end - row_start = 0 := by omega
    simp only [copy_ximage_rows_to_buffer, h0, copy_rows_loop]
    refine ⟨trivial, ?_, ?_, ?_⟩
    · intro y i h1 h2; omega
    · intro a _; trivial
    · simp

/-- C5 (as stated) fails where the byte offsets leave the 32-bit range. For a
destination stride of `2^30` pixels the row length `stride * 4` is computed as
0, so row 1 of the image is copied over row 0 of the destination (outside the
row range [1, 2)) and the destination bytes of row 1 are not written, although
all conditions of the claim hold (`bytes_per_line = w*bpp = 4 ≤ stride*4`, rows
[1, 2) inside both). Likewise for a source row of `2^31 - 1` bytes the offset of
source row 3 wraps, and destination row 3 receives other bytes than those of
source row 3. -/
theorem copy_rows_offsets_wrap :
    (1 * (32 / 8) ≤ 4) ∧ (1 * (32 / 8) ≤ 1073741824 * 4) ∧ (2 ≤ 2)
    ∧ (copy_ximage_rows_to_buffer { width := 1, height := 2, stride := 1073741824 }
          zero_bits (XImage.ofNat 1 2 4 32) sample_data 1 2).2.1 (1 * (1073741824 * 4) + 0)
        ≠ sample_data (1 * 4 + 0)
    ∧ (copy_ximage_rows_to_buffer { width := 1, height := 2, stride := 1073741824 }
          zero_bits (XImage.ofNat 1 2 4 32) sample_data 1 2).2.1 0 ≠ zero_bits 0
    ∧ (copy_ximage_rows_to_buffer { width := 1, height := 2, stride := 1073741824 }
          zero_bits (XImage.ofNat 1 2 4 32) sample_data 1 2).2.2
        = [{ dst := 0, src := 4, len := 4 }]
    ∧ (1 * (32 / 8) ≤ 2147483647) ∧ (1 * (32 / 8) ≤ 1 * 4) ∧ (4 ≤ 4)
    ∧ (copy_ximage_rows_to_buffer { width := 1, height := 4, stride := 1 }
          zero_bits (XImage.ofNat 1 4 2147483647 32) sample_data 3 4).2.1 (3 * (1 * 4) + 0)
        ≠ sample_data (3 * 2147483647 + 0) := by
  decide

/-- C5 (amended): when both pixel arrays are smaller than `2^32` bytes
(`height * bytes_per_line` for the image, `height * stride * 4` for the
buffer), the destination row holds the bytes copied (`w*bpp ≤ stride*4`) and
the row range lies inside both, `copy_ximage_rows_to_buffer` returns 0; for
each row `y` of the range the destination bytes `[y*stride*4, y*stride*4 +
w*bpp)` equal the source bytes `[y*bytes_per_line, y*bytes_per_line + w*bpp)`;
every other destination byte is unchanged; and exactly one `memcpy` of `w*bpp`
bytes is made per row. -/
theorem copy_rows_exact (buf : MBuffer) (bits data : Mem)
    (w h B bpb row_start row_end : Nat)
    (hdst : w * (bpb / 8) ≤ buf.stride * 4)
    (hin1 : row_end ≤ h) (hin2 : row_end ≤ buf.height)
    (hsz1 : h * B < 4294967296) (hsz2 : buf.height * (buf.stride * 4) < 4294967296) :
    (copy_ximage_rows_to_buffer buf bits (XImage.ofNat w h B bpb) data row_start row_end).1 = 0
    ∧ (∀ y i, row_start ≤ y → y < row_end → i < w * (bpb / 8) →
        (copy_ximage_rows_to_buffer buf bits (XImage.ofNat w h B bpb) data
            row_start row_end).2.1 (y * (buf.stride * 4) + i)
          = data (y * B + i))
    ∧ (∀ a, (∀ y, row_start ≤ y → y < row_end →
          ¬ (y * (buf.stride * 4) ≤ a ∧ a < y * (buf.stride * 4) + w * (bpb / 8))) →
        (copy_ximage_rows_to_buffer buf bits (XImage.ofNat w h B bpb) data
            row_start row_end).2.1 a = bits a)
    ∧ (copy_ximage_rows_to_buffer buf bits (XImage.ofNat w h B bpb) data
          row_start row_end).2.2
        = (List.range' row_start (row_end - row_start)).map
            (fun y => { dst := y * (buf.stride * 4), src := y * B, len := w * (bpb / 8) }) :=
  copy_ximage_rows_spec buf bits data w h B bpb row_start row_end hdst hin1 hin2 hsz1 hsz2

theorem copy_rows_exact_witness :
    (copy_ximage_rows_to_buffer { width := 1024, height := 2, stride := 1024 } zero_bits
        (XImage.ofNat 1024 2 4100 32) sample_data 0 2).2.2
      = (List.range' 0 (2 - 0)).map
          (fun y => { dst := y * (1024 * 4), src := y * 4100, len := 1024 * (32 / 8) }) :=
  (copy_rows_exact { width := 1024, height := 2, stride := 1024 } zero_bits sample_data
    1024 2 4100 32 0 2 (by decide) (by decide) (by decide) (by decide) (by decide)).2.2.2

/-- The budget `row_end - row_start` of the rows loop is never used up: any
larger budget gives the same memory and the same `memcpy` calls, whatever the
geometry. -/
theorem copy_rows_loop_budget (S B L : Nat) (data : Mem) (row_end : Nat) (fuel : Nat) :
    ∀ (fuel2 y : Nat) (bits : Mem), row_end - y ≤ fuel → row_end - y ≤ fuel2 →
      copy_rows_loop S B L data row_end fuel y bits
        = copy_rows_loop S B L data row_end fuel2 y bits := by
  induction fuel with
  | zero =>
    intro fuel2 y bits h1 _
    have hy : ¬ y < row_end := by omega
    cases fuel2 with
    | zero => rfl
    | succ m => simp only [copy_rows_loop, hy, if_false]
  | succ n ih =>
    intro fuel2 y bits h1 h2
    by_cases hy : y < row_end
    · cases fuel2 with
      | zero => omega
      | succ m =>
        simp only [copy_rows_loop, hy, if_true]
        rw [ih m (y + 1) _ (by omega) (by omega)]
    · cases fuel2 with
      | zero => simp only [copy_rows_loop, hy, if_false]
      | succ m => simp only [copy_rows_loop, hy, if_false]

/-! ## Bounds of the row copy -/

/-- Every `memcpy` of the rows loop has the length the loop was given. -/
theorem copy_rows_loop_len (S B L : Nat) (data : Mem) (row_end : Nat) :
    ∀ (fuel y : Nat) (bits : Mem),
      ∀ c ∈ (copy_rows_loop S B L data row_end fuel y bits).2, c.len = L := by
  intro fuel
  induction fuel with
  | zero => intro y bits c hc; simp [copy_rows_loop] at hc
  | succ n ih =>
    intro y bits c hc
    by_cases hy : y < row_end
    · simp only [copy_rows_loop, hy, if_true, List.mem_cons] at hc
      rcases hc with hc | hc
      · rw [hc]
      · exact ih _ _ c hc
    · simp [copy_rows_loop, hy] at hc

/-- Read side of the row copy, for every image and buffer: no `memcpy` is
longer than `width * bytes_per_pixel`, so the padding of a source row is never
read as part of that row. -/
theorem copy_rows_reads_bounded (buf : MBuffer) (bits data : Mem)
    (w h B bpb row_start row_end : Nat) :
    ∀ c ∈ (copy_ximage_rows_to_buffer buf bits (XImage.ofNat w h B bpb) data
        row_start row_end).2.2, c.len ≤ w * (bpb / 8) := by
  intro c hc
  simp only [copy_ximage_rows_to_buffer, XImage.ofNat] at hc
  rw [copy_rows_loop_len _ _ _ _ _ _ _ _ c hc, tdiv_natCast_eight, toU32_natCast,
    toU32_natCast]
  calc (w % 4294967296 * (bpb / 8 % 4294967296)) % 4294967296
      ≤ w % 4294967296 * (bpb / 8 % 4294967296) := Nat.mod_le _ _
    _ ≤ w * (bpb / 8) := Nat.mul_le_mul (Nat.mod_le _ _) (Nat.mod_le _ _)

/-- The `memcpy` calls of the rows loop, whatever the geometry: one per row of
the range, at the offsets the loop computes modulo `2^32`. -/
theorem copy_rows_loop_calls (S B L : Nat) (data : Mem) (row_end : Nat) :
    ∀ (fuel y : Nat) (bits : Mem), row_end ≤ y + fuel →
      (copy_rows_loop S B L data row_end fuel y bits).2
        = (List.range' y (row_end - y)).map
            (fun r => { dst := (r * S) % 4294967296, src := (r * B) % 4294967296,
                        len := L }) := by
  intro fuel
  induction fuel with
  | zero =>
    intro y bits h
    have h0 : row_end - y = 0 := by omega
    simp [copy_rows_loop, h0]
  | succ n ih =>
    intro y bits h
    by_cases hy : y < row_end
    · simp only [copy_rows_loop, hy, if_true]
      rw [ih (y + 1) _ (by omega)]
      have hk : row_end - y = (row_end - (y + 1)) + 1 := by omega
      rw [hk, List.range'_succ]
      simp
    · have h0 : row_end - y = 0 := by omega
      simp [copy_rows_loop, hy, h0]

/-- A byte that a sequence of `memcpy` calls changed lies in the destination
range of one of them. -/
theorem apply_copies_changed (data : Mem) (copies : List Copy) :
    ∀ (bits : Mem) (a : Nat), apply_copies data bits copies a ≠ bits a →
      ∃ c ∈ copies, c.dst ≤ a ∧ a < c.dst + c.len := by
  induction copies with
  | nil => intro bits a h; exact absurd rfl h
  | cons c rest ih =>
    intro bits a h
    by_cases hin : c.dst ≤ a ∧ a < c.dst + c.len
    · exact ⟨c, List.mem_cons_self _ _, hin⟩
    · have hsame : memcpy bits c.dst data c.src c.len a = bits a := by
        simp only [memcpy]
        rw [if_neg hin]
      have h2 : apply_copies data (memcpy bits c.dst data c.src c.len) rest a
          ≠ memcpy bits c.dst data c.src c.len a := by
        rw [hsame]
        exact h
      obtain ⟨c2, hc2, hr⟩ := ih _ a h2
      exact ⟨c2, List.mem_cons_of_mem _ hc2, hr⟩

/-- C6 (as stated) fails: nothing in the function relates the bytes copied to
the destination geometry. (a) For a 2-pixel image row and a destination 1 pixel
wide (stride 1, height 1) the single `memcpy` writes 8 bytes at offset 0: bytes
4..7 lie beyond the destination width (`1 * 4` bytes) and beyond the end of the
buffer (`1 * 1 * 4` bytes), and byte 4 is overwritten. (b) For an image of two
rows and a destination of one row (width 2 = stride), the `memcpy` of row 1
writes bytes 8..15, all past the end of the 8-byte buffer. (c) For a
destination 1 pixel wide with a stride of `2^30 + 1` pixels, the row length is
computed as 4, so the `memcpy` of row 1 writes bytes 4..7, which belong to the
padding of destination row 0. -/
theorem copy_rows_writes_past_width :
    ((copy_ximage_rows_to_buffer { width := 1, height := 1, stride := 1 } zero_bits
        (XImage.ofNat 2 1 8 32) sample_data 0 1).2.2
      = [{ dst := 0, src := 0, len := 8 }]
      ∧ (copy_ximage_rows_to_buffer { width := 1, height := 1, stride := 1 } zero_bits
          (XImage.ofNat 2 1 8 32) sample_data 0 1).2.1 4 = sample_data 4
      ∧ sample_data 4 ≠ zero_bits 4
      ∧ ¬ (0 + 8 ≤ 1 * 4))
    ∧ ((copy_ximage_rows_to_buffer { width := 2, height := 1, stride := 2 } zero_bits
        (XImage.ofNat 2 2 8 32) sample_data 0 2).2.2
      = [{ dst := 0, src := 0, len := 8 }, { dst := 8, src := 8, len := 8 }]
      ∧ ¬ (8 + 8 ≤ 1 * (2 * 4)))
    ∧ ((copy_ximage_rows_to_buffer { width := 1, height := 2, stride := 1073741825 } zero_bits
        (XImage.ofNat 1 2 4 32) sample_data 0 2).2.2
      = [{ dst := 0, src := 0, len := 4 }, { dst := 4, src := 4, len := 4 }]
      ∧ ¬ (4 + 4 ≤ 0 * (1073741825 * 4) + 1 * 4)
      ∧ ¬ (1 * (1073741825 * 4) ≤ 4)) := by
  decide

/-- C6 (amended): when the bytes of an image row fit the destination width
(`width * bytes_per_pixel ≤ buf.width * 4`, with `buf.width ≤ buf.stride`), the
rows of the range are rows of the buffer, and the buffer is smaller than `2^32`
bytes, every `memcpy` of `copy_ximage_rows_to_buffer` reads exactly
`width * bytes_per_pixel` bytes and writes them inside the first
`buf.width * 4` bytes of the destination row of the same index, inside the
buffer; the destination memory afterwards is what these copies produce, so a
byte that changed lies within the destination width of a row of the range. -/
theorem copy_rows_in_bounds (buf : MBuffer) (bits data : Mem)
    (w h B bpb row_start row_end : Nat)
    (hfit : w * (bpb / 8) ≤ buf.width * 4) (hws : buf.width ≤ buf.stride)
    (hin : row_end ≤ buf.height)
    (hsz : buf.height * (buf.stride * 4) < 4294967296) :
    (∀ c ∈ (copy_ximage_rows_to_buffer buf bits (XImage.ofNat w h B bpb) data
          row_start row_end).2.2,
        c.len = w * (bpb / 8)
        ∧ ∃ y, row_start ≤ y ∧ y < row_end
          ∧ c.dst = y * (buf.stride * 4)
          ∧ c.dst + c.len ≤ y * (buf.stride * 4) + buf.width * 4
          ∧ c.dst + c.len ≤ buf.height * (buf.stride * 4))
    ∧ (copy_ximage_rows_to_buffer buf bits (XImage.ofNat w h B bpb) data
          row_start row_end).2.1
        = apply_copies data bits
            (copy_ximage_rows_to_buffer buf bits (XImage.ofNat w h B bpb) data
              row_start row_end).2.2
    ∧ (∀ a, (copy_ximage_rows_to_buffer buf bits (XImage.ofNat w h B bpb) data
          row_start row_end).2.1 a ≠ bits a →
        ∃ y, row_start ≤ y ∧ y < row_end
          ∧ y * (buf.stride * 4) ≤ a ∧ a < y * (buf.stride * 4) + buf.width * 4
          ∧ a < buf.height * (buf.stride * 4)) := by
  have hrow : ∀ y, y < row_end →
      y * (buf.stride * 4) + buf.stride * 4 ≤ buf.height * (buf.stride * 4) := by
    intro y hy
    have hm : (y + 1) * (buf.stride * 4) ≤ buf.height * (buf.stride * 4) :=
      Nat.mul_le_mul_right _ (by omega)
    rw [Nat.add_mul, Nat.one_mul] at hm
    exact hm
  have hcalls : ∀ c ∈ (copy_ximage_rows_to_buffer buf bits (XImage.ofNat w h B bpb) data
        row_start row_end).2.2,
      c.len = w * (bpb / 8)
      ∧ ∃ y, row_start ≤ y ∧ y < row_end
        ∧ c.dst = y * (buf.stride * 4)
        ∧ c.dst + c.len ≤ y * (buf.stride * 4) + buf.width * 4
        ∧ c.dst + c.len ≤ buf.height * (buf.stride * 4) := by
    intro c hc
    simp only [copy_ximage_rows_to_buffer, XImage.ofNat] at hc
    rw [copy_rows_loop_calls _ _ _ _ _ _ _ _ (by omega)] at hc
    simp only [List.mem_map, List.mem_range'_1] at hc
    obtain ⟨y, ⟨hy1, hy2⟩, rfl⟩ := hc
    have hy3 : y < row_end := by omega
    have hr := hrow y hy3
    have hS : buf.stride * 4 < 4294967296 := by omega
    have hlen : (toU32 (w : Int) * toU32 (Int.tdiv (bpb : Int) 8)) % 4294967296
        = w * (bpb / 8) := by
      rw [tdiv_natCast_eight, toU32_natCast, toU32_natCast]
      rcases Nat.eq_zero_or_pos w with hw | hw
      · subst hw; simp
      · rcases Nat.eq_zero_or_pos (bpb / 8) with hb | hb
        · rw [hb]; simp
        · have h1 : w * 1 ≤ w * (bpb / 8) := Nat.mul_le_mul_left _ hb
          have h2 : 1 * (bpb / 8) ≤ w * (bpb / 8) := Nat.mul_le_mul_right _ hw
          rw [Nat.mod_eq_of_lt (by omega : w < 4294967296),
            Nat.mod_eq_of_lt (by omega : bpb / 8 < 4294967296),
            Nat.mod_eq_of_lt (by omega)]
    simp only [hlen, Nat.mod_eq_of_lt hS]
    have hoff : (y * (buf.stride * 4)) % 4294967296 = y * (buf.stride * 4) :=
      Nat.mod_eq_of_lt (by omega)
    rw [hoff]
    exact ⟨trivial, y, hy1, hy3, rfl, by omega, by omega⟩
  have htrace : (copy_ximage_rows_to_buffer buf bits (XImage.ofNat w h B bpb) data
        row_start row_end).2.1
      = apply_copies data bits
          (copy_ximage_rows_to_buffer buf bits (XImage.ofNat w h B bpb) data
            row_start row_end).2.2 := by
    simp only [copy_ximage_rows_to_buffer]
    exact copy_rows_loop_trace _ _ _ _ _ _ _ _
  refine ⟨hcalls, htrace, ?_⟩
  intro a ha
  rw [htrace] at ha
  obtain ⟨c, hc, hlo, hhi⟩ := apply_copies_changed data _ bits a ha
  obtain ⟨_, y, hy1, hy2, hd, hw1, hw2⟩ := hcalls c hc
  exact ⟨y, hy1, hy2, by omega, by omega, by omega⟩

theorem copy_rows_in_bounds_witness :
    (2 * (32 / 8) ≤ 2 * 4 ∧ 2 ≤ 3 ∧ 2 ≤ 2 ∧ 2 * (3 * 4) < 4294967296)
    ∧ ∃ y, 0 ≤ y ∧ y < 2
        ∧ (12 : Nat) = y * (3 * 4)
        ∧ (12 : Nat) + 8 ≤ y * (3 * 4) + 2 * 4
        ∧ (12 : Nat) + 8 ≤ 2 * (3 * 4) :=
  ⟨by decide,
   ((copy_rows_in_bounds { width := 2, height := 2, stride := 3 } zero_bits sample_data
        2 2 10 32 0 2 (by decide) (by decide) (by decide) (by decide)).1
      { dst := 12, src := 10, len := 8 } (by decide)).2⟩

/-! ## Cursor compositing -/

/-- A cursor row at or below the bottom edge of the buffer is skipped. -/
theorem cursor_row_loop_skip (buf : MBuffer) (cache_bits : Mem) (cw y : Nat)
    (hy : buf.height ≤ y) (fuel cur_x : Nat) (bits : Mem) :
    cursor_row_loop buf cache_bits cw y fuel cur_x bits = bits := by
  cases fuel with
  | zero => rfl
  | succ n =>
    have hb : y ≥ buf.height ∨ cur_x ≥ buf.width := Or.inl hy
    simp only [cursor_row_loop, hb, if_true, ite_self]

/-- The budgets of the two cursor loops (`cursor->width` and `cursor->height`
iterations) are never used up: any larger budget gives the same memory. -/
theorem cursor_loops_budget (buf : MBuffer) (cache_bits : Mem) (cursor : XFixesCursorImage)
    (fuel : Nat) :
    (∀ (cw cur_y fuel2 cur_x : Nat) (bits : Mem), cw - cur_x ≤ fuel → cw - cur_x ≤ fuel2 →
        cursor_row_loop buf cache_bits cw cur_y fuel cur_x bits
          = cursor_row_loop buf cache_bits cw cur_y fuel2 cur_x bits)
    ∧ (∀ (fuel2 cur_y : Nat) (bits : Mem),
        cursor.height - cur_y ≤ fuel → cursor.height - cur_y ≤ fuel2 →
        cursor_loop buf cache_bits cursor fuel cur_y bits
          = cursor_loop buf cache_bits cursor fuel2 cur_y bits) := by
  induction fuel with
  | zero =>
    constructor
    · intro cw cur_y fuel2 cur_x bits h1 _
      have hx : ¬ cur_x < cw := by omega
      cases fuel2 with
      | zero => rfl
      | succ m => simp only [cursor_row_loop, hx, if_false]
    · intro fuel2 cur_y bits h1 _
      have hy : ¬ cur_y < cursor.height := by omega
      cases fuel2 with
      | zero => rfl
      | succ m => simp only [cursor_loop, hy, if_false]
  | succ n ih =>
    constructor
    · intro cw cur_y fuel2 cur_x bits h1 h2
      by_cases hx : cur_x < cw
      · cases fuel2 with
        | zero => omega
        | succ m =>
          simp only [cursor_row_loop, hx, if_true]
          split
          · rfl
          · exact ih.1 cw cur_y m (cur_x + 1) _ (by omega) (by omega)
      · cases fuel2 with
        | zero => simp only [cursor_row_loop, hx, if_false]
        | succ m => simp only [cursor_row_loop, hx, if_false]
    · intro fuel2 cur_y bits h1 h2
      by_cases hy : cur_y < cursor.height
      · cases fuel2 with
        | zero => omega
        | succ m =>
          simp only [cursor_loop, hy, if_true]
          exact ih.2 m (cur_y + 1) _ (by omega) (by omega)
      · cases fuel2 with
        | zero => simp only [cursor_loop, hy, if_false]
        | succ m => simp only [cursor_loop, hy, if_false]

/-- One cursor row inside the buffer, offsets within the 32-bit range: the
pixels of the row that are inside the buffer width and have alpha 255 are
copied, every byte outside those pixels is left as it was. -/
theorem cursor_row_loop_spec (buf : MBuffer) (cache_bits : Mem) (cw y : Nat)
    (hy : y < buf.height) (hws : buf.width ≤ buf.stride)
    (hsrc : y * cw + cw ≤ 1073741824) (hdst : y * buf.stride + buf.stride ≤ 1073741824) :
    ∀ (fuel cur_x : Nat) (bits : Mem), cw ≤ cur_x + fuel →
      (∀ x b, cur_x ≤ x → x < cw → x < buf.width → b < 4 →
          cache_bits (4 * (y * cw + x) + 3) = 255 →
          cursor_row_loop buf cache_bits cw y fuel cur_x bits ((y * buf.stride + x) * 4 + b)
            = cache_bits (4 * (y * cw + x) + b))
      ∧ (∀ a, (∀ x, cur_x ≤ x → x < cw → x < buf.width →
            cache_bits (4 * (y * cw + x) + 3) = 255 → a / 4 ≠ y * buf.stride + x) →
          cursor_row_loop buf cache_bits cw y fuel cur_x bits a = bits a) := by
  intro fuel
  induction fuel with
  | zero =>
    intro cur_x bits h
    exact ⟨by intro x b h1 h2; omega, by intro a _; rfl⟩
  | succ n ih =>
    intro cur_x bits h
    by_cases h1 : cur_x < cw
    · by_cases h2 : cur_x ≥ buf.width
      · have hb : y ≥ buf.height ∨ cur_x ≥ buf.width := Or.inr h2
        refine ⟨by intro x b hx1 _ hx3; omega, ?_⟩
        intro a _
        simp only [cursor_row_loop, h1, hb, if_true]
      · have hb : ¬ (y ≥ buf.height ∨ cur_x ≥ buf.width) := by omega
        have e1 : (4 * (((y * cw) % 4294967296 + cur_x) % 4294967296)) % 4294967296
            = 4 * (y * cw + cur_x) := by omega
        have e2 : ((((y * buf.stride) % 4294967296 + cur_x) % 4294967296) * 4) % 4294967296
            = (y * buf.stride + cur_x) * 4 := by omega
        obtain ⟨i1, i2⟩ := ih (cur_x + 1)
          (if cache_bits (4 * (y * cw + cur_x) + 3) = 255
            then memcpy bits ((y * buf.stride + cur_x) * 4) cache_bits (4 * (y * cw + cur_x)) 4
            else bits) (by omega)
        simp only [cursor_row_loop, h1, hb, if_true, if_false, e1, e2]
        refine ⟨?_, ?_⟩
        · intro x b hx1 hx2 hx3 hb4 halpha
          rcases Nat.eq_or_lt_of_le hx1 with heq | hlt
          · subst heq
            rw [i2]
            · rw [if_pos halpha]
              simp only [memcpy]
              rw [if_pos (by omega)]
              congr 1
              omega
            · intro x2 hx21 _ _ _
              omega
          · exact i1 x b hlt hx2 hx3 hb4 halpha
        · intro a ha
          rw [i2 a (fun x hx1 hx2 hx3 hx4 => ha x (by omega) hx2 hx3 hx4)]
          by_cases halpha : cache_bits (4 * (y * cw + cur_x) + 3) = 255
          · have hne := ha cur_x (le_refl _) h1 (by omega) halpha
            rw [if_pos halpha]
            simp only [memcpy]
            rw [if_neg (by omega)]
          · rw [if_neg halpha]
    · exact ⟨by intro x b hx1 hx2; omega, by
        intro a _
        simp only [cursor_row_loop, h1, if_false]⟩

/-- The compositing loop when the cursor bitmap and the buffer are each at
most `2^32` bytes: exactly the pixels inside both the cursor and the buffer
that have alpha 255 are copied. -/
theorem cursor_loop_spec (buf : MBuffer) (cache_bits : Mem) (cursor : XFixesCursorImage)
    (hws : buf.width ≤ buf.stride)
    (hsrc : cursor.height * cursor.width ≤ 1073741824)
    (hdst : buf.height * buf.stride ≤ 1073741824) :
    ∀ (fuel cur_y : Nat) (bits : Mem), cursor.height ≤ cur_y + fuel →
      (∀ y x b, cur_y ≤ y → y < cursor.height → y < buf.height →
          x < cursor.width → x < buf.width → b < 4 →
          cache_bits (4 * (y * cursor.width + x) + 3) = 255 →
          cursor_loop buf cache_bits cursor fuel cur_y bits ((y * buf.stride + x) * 4 + b)
            = cache_bits (4 * (y * cursor.width + x) + b))
      ∧ (∀ a, (∀ y x, cur_y ≤ y → y < cursor.height → y < buf.height →
            x < cursor.width → x < buf.width →
            cache_bits (4 * (y * cursor.width + x) + 3) = 255 →
            a / 4 ≠ y * buf.stride + x) →
          cursor_loop buf cache_bits cursor fuel cur_y bits a = bits a) := by
  intro fuel
  induction fuel with
  | zero =>
    intro cur_y bits h
    exact ⟨by intro y x b h1 h2; omega, by intro a _; rfl⟩
  | succ n ih =>
    intro cur_y bits h
    by_cases h1 : cur_y < cursor.height
    · obtain ⟨o1, o2⟩ := ih (cur_y + 1)
        (cursor_row_loop buf cache_bits cursor.width cur_y cursor.width 0 bits) (by omega)
      have hrow : cur_y < buf.height →
          (∀ x b, 0 ≤ x → x < cursor.width → x < buf.width → b < 4 →
              cache_bits (4 * (cur_y * cursor.width + x) + 3) = 255 →
              cursor_row_loop buf cache_bits cursor.width cur_y cursor.width 0 bits
                  ((cur_y * buf.stride + x) * 4 + b)
                = cache_bits (4 * (cur_y * cursor.width + x) + b))
          ∧ (∀ a, (∀ x, 0 ≤ x → x < cursor.width → x < buf.width →
                cache_bits (4 * (cur_y * cursor.width + x) + 3) = 255 →
                a / 4 ≠ cur_y * buf.stride + x) →
              cursor_row_loop buf cache_bits cursor.width cur_y cursor.width 0 bits a
                = bits a) := by
        intro hyb
        have hs : (cur_y + 1) * cursor.width ≤ cursor.height * cursor.width :=
          Nat.mul_le_mul_right _ (by omega)
        have hd : (cur_y + 1) * buf.stride ≤ buf.height * buf.stride :=
          Nat.mul_le_mul_right _ (by omega)
        rw [Nat.add_mul, Nat.one_mul] at hs hd
        exact cursor_row_loop_spec buf cache_bits cursor.width cur_y hyb hws
          (by omega) (by omega) cursor.width 0 bits (by omega)
      simp only [cursor_loop, h1, if_true]
      refine ⟨?_, ?_⟩
      · intro y x b hy1 hy2 hy3 hx1 hx2 hb4 halpha
        rcases Nat.eq_or_lt_of_le hy1 with heq | hlt
        · subst heq
          rw [o2]
          · exact (hrow hy3).1 x b (Nat.zero_le _) hx1 hx2 hb4 halpha
          · intro y2 x2 hy21 _ _ _ _ _
            have hm : (cur_y + 1) * buf.stride ≤ y2 * buf.stride :=
              Nat.mul_le_mul_right _ hy21
            rw [Nat.add_mul, Nat.one_mul] at hm
            omega
        · exact o1 y x b hlt hy2 hy3 hx1 hx2 hb4 halpha
      · intro a ha
        rw [o2 a (fun y x hy1 hy2 hy3 hx1 hx2 hal => ha y x (by omega) hy2 hy3 hx1 hx2 hal)]
        by_cases hyb : cur_y < buf.height
        · exact (hrow hyb).2 a (fun x _ hx1 hx2 hal => ha cur_y x (le_refl _) h1 hyb hx1 hx2 hal)
        · exact congrFun (cursor_row_loop_skip buf cache_bits cursor.width cur_y (by omega)
            cursor.width 0 bits) a
    · exact ⟨by intro y x b hy1 hy2; omega, by
        intro a _
        simp only [cursor_loop, h1, if_false]⟩

/-- Two pixels of a buffer with the same pixel index are the same pixel. -/
theorem pixel_index_unique (stride x y x2 y2 : Nat) (hx : x < stride) (hx2 : x2 < stride)
    (h : y * stride + x = y2 * stride + x2) : y = y2 ∧ x = x2 := by
  rcases Nat.lt_trichotomy y y2 with hlt | heq | hgt
  · have hm : (y + 1) * stride ≤ y2 * stride := Nat.mul_le_mul_right _ hlt
    rw [Nat.add_mul, Nat.one_mul] at hm
    omega
  · subst heq
    exact ⟨rfl, by omega⟩
  · have hm : (y2 + 1) * stride ≤ y * stride := Nat.mul_le_mul_right _ hgt
    rw [Nat.add_mul, Nat.one_mul] at hm
    omega

/-- C7 (as stated) fails where the byte offsets leave the 32-bit range: for a
destination stride of `2^30` pixels (width 1 ≤ stride, height 2) and a 1 x 2
cursor whose pixels both have alpha 255, the offset of destination pixel (0, 1)
is computed as 0, so that pixel is not written although its source pixel has
alpha 255, and destination pixel (0, 0) ends up holding source pixel (0, 1)
instead of source pixel (0, 0). -/
theorem cursor_offsets_wrap :
    (copy_xcursor_to_buffer 0 0 { width := 1, height := 2, stride := 1073741824 }
        zero_bits solid_cursor { width := 1, height := 2 }).1 = 0
    ∧ solid_cursor (4 * (1 * 1 + 0) + 3) = 255
    ∧ (copy_xcursor_to_buffer 0 0 { width := 1, height := 2, stride := 1073741824 }
        zero_bits solid_cursor { width := 1, height := 2 }).2
          ((1 * 1073741824 + 0) * 4 + 0)
        ≠ solid_cursor (4 * (1 * 1 + 0) + 0)
    ∧ solid_cursor (4 * (0 * 1 + 0) + 3) = 255
    ∧ (copy_xcursor_to_buffer 0 0 { width := 1, height := 2, stride := 1073741824 }
        zero_bits solid_cursor { width := 1, height := 2 }).2 ((0 * 1073741824 + 0) * 4 + 0)
        ≠ solid_cursor (4 * (0 * 1 + 0) + 0) := by
  decide

/-- C7 (amended): when the lock and the unlock succeed, `width ≤ stride`, and
the cursor bitmap (`cw * ch * 4` bytes) and the destination buffer
(`bh * stride * 4` bytes) are each at most `2^32` bytes, `copy_xcursor_to_buffer`
returns 0 and afterwards (1) a destination pixel (x, y) with `x < min cw bw`,
`y < min ch bh` and source alpha 255 holds the four bytes of source pixel
(x, y); (2) any other pixel position (x, y) of the destination memory, `x`
below the stride, keeps its four bytes, in particular one whose source alpha is
254 or one outside the destination width or height; (3) every byte that is not
part of a pixel of kind (1) is unchanged. -/
theorem cursor_composite_exact (lock_err unlock_err : Int) (buf : MBuffer)
    (bits cache_bits : Mem) (cursor : XFixesCursorImage)
    (hlock : ¬ lock_err < 0) (hunlock : ¬ unlock_err < 0)
    (hws : buf.width ≤ buf.stride)
    (hsrc : cursor.width * cursor.height * 4 ≤ 4294967296)
    (hdst : buf.height * buf.stride * 4 ≤ 4294967296) :
    (copy_xcursor_to_buffer lock_err unlock_err buf bits cache_bits cursor).1 = 0
    ∧ (∀ x y b, x < min cursor.width buf.width → y < min cursor.height buf.height → b < 4 →
        cache_bits (4 * (y * cursor.width + x) + 3) = 255 →
        (copy_xcursor_to_buffer lock_err unlock_err buf bits cache_bits cursor).2
            ((y * buf.stride + x) * 4 + b)
          = cache_bits (4 * (y * cursor.width + x) + b))
    ∧ (∀ x y b, x < buf.stride → b < 4 →
        ¬ (x < min cursor.width buf.width ∧ y < min cursor.height buf.height
            ∧ cache_bits (4 * (y * cursor.width + x) + 3) = 255) →
        (copy_xcursor_to_buffer lock_err unlock_err buf bits cache_bits cursor).2
            ((y * buf.stride + x) * 4 + b)
          = bits ((y * buf.stride + x) * 4 + b))
    ∧ (∀ a, (∀ x y, x < min cursor.width buf.width → y < min cursor.height buf.height →
          cache_bits (4 * (y * cursor.width + x) + 3) = 255 →
          a / 4 ≠ y * buf.stride + x) →
        (copy_xcursor_to_buffer lock_err unlock_err buf bits cache_bits cursor).2 a
          = bits a) := by
  have hsrc2 : cursor.height * cursor.width ≤ 1073741824 := by
    rw [Nat.mul_comm]; omega
  have hdst2 : buf.height * buf.stride ≤ 1073741824 := by omega
  obtain ⟨o1, o2⟩ := cursor_loop_spec buf cache_bits cursor hws hsrc2 hdst2 cursor.height 0
    bits (by omega)
  have hret : copy_xcursor_to_buffer lock_err unlock_err buf bits cache_bits cursor
      = (0, cursor_loop buf cache_bits cursor cursor.height 0 bits) := by
    simp only [copy_xcursor_to_buffer, hlock, hunlock, if_false]
  rw [hret]
  have h3 : ∀ a, (∀ x y, x < min cursor.width buf.width → y < min cursor.height buf.height →
        cache_bits (4 * (y * cursor.width + x) + 3) = 255 →
        a / 4 ≠ y * buf.stride + x) →
      cursor_loop buf cache_bits cursor cursor.height 0 bits a = bits a := by
    intro a ha
    apply o2
    intro y x _ hy2 hy3 hx1 hx2 hal
    exact ha x y (by omega) (by omega) hal
  refine ⟨rfl, ?_, ?_, h3⟩
  · intro x y b hx hy hb halpha
    exact o1 y x b (Nat.zero_le _) (by omega) (by omega) (by omega) (by omega) hb halpha
  · intro x y b hx hb hnot
    apply h3
    intro x2 y2 hx2 hy2 hal heq
    have hidx : ((y * buf.stride + x) * 4 + b) / 4 = y * buf.stride + x := by omega
    rw [hidx] at heq
    obtain ⟨e1, e2⟩ := pixel_index_unique buf.stride x y x2 y2 hx (by omega) heq
    subst e1 e2
    exact hnot ⟨hx2, hy2, hal⟩

theorem cursor_composite_exact_witness :
    (copy_xcursor_to_buffer 0 0 { width := 2, height := 2, stride := 2 } zero_bits
        (fun a => if a = 3 ∨ a = 11 then 255 else 254) { width := 2, height := 2 }).2
        ((0 * 2 + 1) * 4 + 0)
      = zero_bits ((0 * 2 + 1) * 4 + 0) :=
  (cursor_composite_exact 0 0 { width := 2, height := 2, stride := 2 } zero_bits
    (fun a => if a = 3 ∨ a = 11 then 255 else 254) { width := 2, height := 2 }
    (by decide) (by decide) (by decide) (by decide) (by decide)).2.2.1 1 0 0
    (by decide) (by decide) (by decide)

/-! ## Cursor position -/

/-- C13: for every cursor position `(x, y)` (`short`) and hotspot
`(xhot, yhot)` (`unsigned short`) that differs from the cached position, the
position handed to `MUpdateBuffer` for the cursor surface is exactly
`(max 0 (x - xhot), max 0 (y - yhot))`: both coordinates are non-negative and
equal the hotspot-adjusted value whenever that value is non-negative.
Afterwards the cache holds the reported `(x, y)`, not the adjusted position:
`last_x` and `last_y` are `x` and `y` converted to `uint32_t`, which are `x`
and `y` themselves when these are non-negative; the other cache fields are
untouched. -/
theorem cursor_position_clamped (cursor_cache : cursor_cache_t) (xcursor : XFixesCursorImage)
    (hx : -32768 ≤ xcursor.x ∧ xcursor.x ≤ 32767)
    (hy : -32768 ≤ xcursor.y ∧ xcursor.y ≤ 32767)
    (hxhot : xcursor.xhot ≤ 65535) (hyhot : xcursor.yhot ≤ 65535)
    (hmoved : toU32 xcursor.x ≠ cursor_cache.last_x ∨ toU32 xcursor.y ≠ cursor_cache.last_y) :
    (main_cursor_step cursor_cache xcursor).update
        = some (max 0 (xcursor.x - xcursor.xhot), max 0 (xcursor.y - xcursor.yhot))
    ∧ 0 ≤ max 0 (xcursor.x - (xcursor.xhot : Int))
    ∧ 0 ≤ max 0 (xcursor.y - (xcursor.yhot : Int))
    ∧ (0 ≤ xcursor.x - (xcursor.xhot : Int) →
        max 0 (xcursor.x - (xcursor.xhot : Int)) = xcursor.x - xcursor.xhot)
    ∧ (0 ≤ xcursor.y - (xcursor.yhot : Int) →
        max 0 (xcursor.y - (xcursor.yhot : Int)) = xcursor.y - xcursor.yhot)
    ∧ (main_cursor_step cursor_cache xcursor).cache
        = { cursor_cache with last_x := toU32 xcursor.x, last_y := toU32 xcursor.y }
    ∧ (0 ≤ xcursor.x →
        ((main_cursor_step cursor_cache xcursor).cache.last_x : Int) = xcursor.x)
    ∧ (0 ≤ xcursor.y →
        ((main_cursor_step cursor_cache xcursor).cache.last_y : Int) = xcursor.y) := by
  have hstep : main_cursor_step cursor_cache xcursor
      = { cache := { cursor_cache with last_x := toU32 xcursor.x, last_y := toU32 xcursor.y },
          update := some (max 0 (xcursor.x - xcursor.xhot),
            max 0 (xcursor.y - xcursor.yhot)) } := by
    have ex : toI32 (xcursor.x - (xcursor.xhot : Int)) = xcursor.x - xcursor.xhot := by
      unfold toI32; omega
    have ey : toI32 (xcursor.y - (xcursor.yhot : Int)) = xcursor.y - xcursor.yhot := by
      unfold toI32; omega
    have mx : (if xcursor.x - (xcursor.xhot : Int) < 0 then 0
        else xcursor.x - (xcursor.xhot : Int)) = max 0 (xcursor.x - xcursor.xhot) := by
      split <;> omega
    have my : (if xcursor.y - (xcursor.yhot : Int) < 0 then 0
        else xcursor.y - (xcursor.yhot : Int)) = max 0 (xcursor.y - xcursor.yhot) := by
      split <;> omega
    simp only [main_cursor_step]
    rw [if_pos hmoved, ex, ey, mx, my]
  rw [hstep]
  refine ⟨rfl, by omega, by omega, by omega, by omega, rfl, ?_, ?_⟩
  · intro h0
    simp only [toU32]
    omega
  · intro h0
    simp only [toU32]
    omega

theorem cursor_position_clamped_witness :
    (main_cursor_step { last_x := 100, last_y := 100, w := 32, h := 32 }
        { width := 32, height := 32, x := 3, y := 120, xhot := 10, yhot := 4 }).update
      = some (max 0 ((3 : Int) - (10 : Nat)), max 0 ((120 : Int) - (4 : Nat))) :=
  (cursor_position_clamped { last_x := 100, last_y := 100, w := 32, h := 32 }
    { width := 32, height := 32, x := 3, y := 120, xhot := 10, yhot := 4 }
    (by decide) (by decide) (by decide) (by decide) (by decide)).1

/-- When the position equals the cached one the pass sends nothing and leaves
the cache alone. -/
theorem cursor_position_unchanged (cursor_cache : cursor_cache_t)
    (xcursor : XFixesCursorImage)
    (hsame : toU32 xcursor.x = cursor_cache.last_x ∧ toU32 xcursor.y = cursor_cache.last_y) :
    main_cursor_step cursor_cache xcursor = { cache := cursor_cache, update := none } := by
  simp [main_cursor_step, hsame.1, hsame.2]

end Mclient
